import Mathlib

/-!
Shallow embedding of the Server5K timing-registration core:
the competition lifecycle (app/services/competencia_service.py,
app/models/competencia.py), the time-registration service
(app/services/registro_service.py), the results aggregation
(app/views/html_views.py) and the records-status query
(app/views/registro_views.py), together with proofs of the
specification's claims about them.

Conventions: database rows live in explicit lists inside a `Store`;
Django `objects.get`/`filter`/`first` become `List.find?`/`List.filter`/
`List.head?`; `QuerySet` default ordering and Python's stable `list.sort`
are modelled by `ordenarEstable`, a stable sort; timestamps are abstract
naturals passed in by the caller; UUIDs are naturals, with freshly
generated UUIDs passed as explicit arguments.  Channel-layer notifications
are collected in an output list of events.
-/

namespace Server5K

/-- Stable insertion used by `ordenarEstable`: `x` goes in front of the
first element strictly greater than it, hence after every element equal
to it that was already in the list. -/
def insertar {α : Type} (le : α → α → Bool) (x : α) : List α → List α
  | [] => [x]
  | y :: ys => if le y x && !(le x y) then y :: insertar le x ys else x :: y :: ys

/-- Stable sort by a total preorder `le`: the ordering produced by
Python's stable `list.sort`/queryset ordering. -/
def ordenarEstable {α : Type} (le : α → α → Bool) : List α → List α
  | [] => []
  | x :: xs => insertar le x (ordenarEstable le xs)

theorem mem_insertar {α : Type} {le : α → α → Bool} {x a : α} {l : List α} :
    a ∈ insertar le x l ↔ a = x ∨ a ∈ l := by
  induction l with
  | nil => simp [insertar]
  | cons y ys ih =>
    simp only [insertar]
    by_cases hc : le y x && !(le x y)
    · rw [if_pos hc]
      simp only [List.mem_cons, ih]
      tauto
    · rw [if_neg hc]
      simp only [List.mem_cons]

theorem mem_ordenarEstable {α : Type} {le : α → α → Bool} {a : α} {l : List α} :
    a ∈ ordenarEstable le l ↔ a ∈ l := by
  induction l with
  | nil => simp [ordenarEstable]
  | cons x xs ih =>
    simp only [ordenarEstable, mem_insertar, List.mem_cons, ih]

theorem pairwise_insertar {α : Type} {le : α → α → Bool} {x : α} {l : List α}
    (htotal : ∀ a b, le a b || le b a) (htrans : ∀ a b c, le a b → le b c → le a c)
    (hp : l.Pairwise (fun a b => le a b = true)) :
    (insertar le x l).Pairwise (fun a b => le a b = true) := by
  induction l with
  | nil => simp [insertar]
  | cons y ys ih =>
    rw [List.pairwise_cons] at hp
    simp only [insertar]
    by_cases hc : le y x && !(le x y)
    · rw [if_pos hc]
      rw [List.pairwise_cons]
      constructor
      · intro z hz
        rcases mem_insertar.mp hz with rfl | hz
        · exact (Bool.and_eq_true _ _ |>.mp hc).1
        · exact hp.1 z hz
      · exact ih hp.2
    · rw [if_neg hc]
      have hxy : le x y = true := by
        rcases Bool.or_eq_true _ _ |>.mp (htotal x y) with h | h
        · exact h
        · by_contra hnxy
          exact hc (by simp [h, Bool.eq_false_iff.mpr hnxy])
      rw [List.pairwise_cons]
      constructor
      · intro z hz
        rcases List.mem_cons.mp hz with rfl | hz
        · exact hxy
        · exact htrans x y z hxy (hp.1 z hz)
      · rw [List.pairwise_cons]
        exact hp

theorem pairwise_ordenarEstable {α : Type} {le : α → α → Bool} {l : List α}
    (htotal : ∀ a b, le a b || le b a) (htrans : ∀ a b c, le a b → le b c → le a c) :
    (ordenarEstable le l).Pairwise (fun a b => le a b = true) := by
  induction l with
  | nil => simp [ordenarEstable]
  | cons x xs ih =>
    exact pairwise_insertar htotal htrans ih

/-- A row of the `Competencia` table (app/models/competencia.py). -/
structure Competencia where
  id : Nat
  name : String
  isActive : Bool
  isRunning : Bool
  startedAt : Option Nat
  finishedAt : Option Nat
deriving Repr, DecidableEq

/-- A row of the `Juez` table (app/models/juez.py). -/
structure Juez where
  id : Nat
  username : String
  isActive : Bool
deriving Repr, DecidableEq

/-- A row of the `Equipo` table (app/models/equipo.py): `judge` is the
nullable FK `judge_id`, `competition` the FK `competition_id`. -/
structure Equipo where
  id : Nat
  name : String
  number : Nat
  category : String
  competition : Nat
  judge : Option Nat
deriving Repr, DecidableEq

/-- A row of the `RegistroTiempo` table (fields as used by
app/services/registro_service.py: `record_id`, `team`, `time`,
`hours`, `minutes`, `seconds`, `milliseconds`). -/
structure RegistroTiempo where
  recordId : Nat
  team : Nat
  time : Nat
  hours : Nat
  minutes : Nat
  seconds : Nat
  milliseconds : Nat
deriving Repr, DecidableEq

/-- The relational store: one list per table. -/
structure Store where
  competencias : List Competencia
  jueces : List Juez
  equipos : List Equipo
  registros : List RegistroTiempo
deriving Repr, DecidableEq

/-- A channel-layer `group_send` to the group `competencia_{compId}`
(CompetenciaService._notificar_jueces_competencia). -/
structure Evento where
  compId : Nat
  tipo : String
  competenciaNombre : String
  enCurso : Bool
  startedAt : Option Nat
  finishedAt : Option Nat
deriving Repr, DecidableEq

def Store.findCompetencia (st : Store) (cid : Nat) : Option Competencia :=
  st.competencias.find? (fun c => c.id = cid)

def Store.findEquipo (st : Store) (eid : Nat) : Option Equipo :=
  st.equipos.find? (fun e => e.id = eid)

def Store.findJuez (st : Store) (jid : Nat) : Option Juez :=
  st.jueces.find? (fun j => j.id = jid)

def Store.findRegistro (st : Store) (rid : Nat) : Option RegistroTiempo :=
  st.registros.find? (fun r => r.recordId = rid)

/-- `competencia.save()`: write back the row with this id. -/
def Store.saveCompetencia (st : Store) (c : Competencia) : Store :=
  { st with competencias := st.competencias.map (fun x => if x.id = c.id then c else x) }

/-- Number of stored records of a team
(`RegistroTiempo.objects.filter(team=equipo).count()`). -/
def Store.countTeam (st : Store) (eid : Nat) : Nat :=
  (st.registros.filter (fun r => r.team = eid)).length

/-- Teams assigned to a judge, in the `Equipo` Meta ordering `['number']`
(`juez.teams.all()`). -/
def Store.equiposDeJuez (st : Store) (jid : Nat) : List Equipo :=
  ordenarEstable (fun a b => a.number ≤ b.number)
    (st.equipos.filter (fun e => e.judge = some jid))

/-! ## Competition lifecycle (CompetenciaService and Competencia.start/stop) -/

/-- Outcome of a lifecycle operation. -/
inductive LifeResult where
  /-- the `exito: True` / `success: True` branch -/
  | ok (c : Competencia)
  /-- 'La competencia ya está en curso' / 'already_running' -/
  | alreadyRunning
  /-- 'La competencia no está activa' (service only) -/
  | notActive
  /-- 'another_running' with the conflicting competition -/
  | conflicting (otra : Competencia)
  /-- 'La competencia no está en curso' / 'not_running' -/
  | notRunning
  /-- Competencia.DoesNotExist -/
  | notFound
deriving Repr, DecidableEq

/-- `Competencia.objects.filter(is_running=True).exclude(id=cid).first()`. -/
def Store.otraEnCurso (st : Store) (cid : Nat) : Option Competencia :=
  (st.competencias.filter (fun x => x.isRunning && !(x.id = cid))).head?

/-- `CompetenciaService.iniciar_competencia` (competencia_service.py:25-89);
`now` stands for `timezone.now()`. -/
def iniciarCompetencia (st : Store) (cid : Nat) (now : Nat) :
    LifeResult × Store × List Evento :=
  match st.findCompetencia cid with
  | none => (.notFound, st, [])
  | some competencia =>
    if competencia.isRunning then
      (.alreadyRunning, st, [])
    else if !competencia.isActive then
      (.notActive, st, [])
    else
      match st.otraEnCurso cid with
      | some otra => (.conflicting otra, st, [])
      | none =>
        let c := { competencia with isRunning := true, startedAt := some now }
        (.ok c, st.saveCompetencia c,
          [⟨c.id, "competencia_iniciada", c.name, true, c.startedAt, none⟩])

/-- `CompetenciaService.detener_competencia` (competencia_service.py:91-142). -/
def detenerCompetencia (st : Store) (cid : Nat) (now : Nat) :
    LifeResult × Store × List Evento :=
  match st.findCompetencia cid with
  | none => (.notFound, st, [])
  | some competencia =>
    if !competencia.isRunning then
      (.notRunning, st, [])
    else
      let c := { competencia with isRunning := false, finishedAt := some now }
      (.ok c, st.saveCompetencia c,
        [⟨c.id, "competencia_detenida", c.name, false, c.startedAt, c.finishedAt⟩])

/-- `Competencia.start` (app/models/competencia.py:21-52), the method the
admin actions call on a fetched instance. -/
def Competencia.start (self : Competencia) (st : Store) (now : Nat) :
    LifeResult × Store × List Evento :=
  if self.isRunning then
    (.alreadyRunning, st, [])
  else
    match st.otraEnCurso self.id with
    | some otra => (.conflicting otra, st, [])
    | none =>
      let c := { self with isRunning := true, startedAt := some now }
      (.ok c, st.saveCompetencia c,
        [⟨c.id, "competencia_iniciada", c.name, true, c.startedAt, none⟩])

/-- `Competencia.stop` (app/models/competencia.py:54-75). -/
def Competencia.stop (self : Competencia) (st : Store) (now : Nat) :
    LifeResult × Store × List Evento :=
  if !self.isRunning then
    (.notRunning, st, [])
  else
    let c := { self with isRunning := false, finishedAt := some now }
    (.ok c, st.saveCompetencia c,
      [⟨c.id, "competencia_detenida", c.name, false, c.startedAt, c.finishedAt⟩])

/-- Admin entry `iniciar_competencia_view` (admin.py:241-261): fetch by pk,
then call `Competencia.start`. -/
def adminStart (st : Store) (cid : Nat) (now : Nat) :
    LifeResult × Store × List Evento :=
  match st.findCompetencia cid with
  | none => (.notFound, st, [])
  | some competencia => competencia.start st now

/-- Admin entry `detener_competencia_view` (admin.py:263-276). -/
def adminStop (st : Store) (cid : Nat) (now : Nat) :
    LifeResult × Store × List Evento :=
  match st.findCompetencia cid with
  | none => (.notFound, st, [])
  | some competencia => competencia.stop st now

/-- A lifecycle operation: either start or stop, through either the
service (`CompetenciaService`) or the model method (admin path). -/
inductive LifeOp where
  | startService (cid now : Nat)
  | startAdmin (cid now : Nat)
  | stopService (cid now : Nat)
  | stopAdmin (cid now : Nat)

def applyLifeOp (st : Store) : LifeOp → Store
  | .startService cid now => (iniciarCompetencia st cid now).2.1
  | .startAdmin cid now => (adminStart st cid now).2.1
  | .stopService cid now => (detenerCompetencia st cid now).2.1
  | .stopAdmin cid now => (adminStop st cid now).2.1

def execLife (st : Store) : List LifeOp → Store
  | [] => st
  | op :: ops => execLife (applyLifeOp st op) ops

/-- Number of competitions currently flagged `is_running`. -/
def Store.countRunning (st : Store) : Nat :=
  (st.competencias.filter (fun c => c.isRunning)).length

/-! ## Time-registration service (RegistroService) -/

/-- Error branches of `RegistroService.registrar_tiempo`. -/
inductive RegError where
  /-- Juez.DoesNotExist on the refresh (caught by the generic handler) -/
  | juezNoEncontrado
  /-- 'El juez no tiene equipos asignados' -/
  | sinEquipos
  /-- 'La competencia no ha iniciado o ya finalizó.' -/
  | compNoEnCurso
  /-- 'El equipo con ID ... no existe' -/
  | equipoNoExiste
  /-- 'El equipo ... no pertenece a tu lista de equipos asignados' -/
  | equipoAjeno
  /-- 'El equipo ya completó sus 15 registros.' -/
  | limiteAlcanzado
deriving Repr, DecidableEq

/-- Result dict of `registrar_tiempo`: `exito`/`registro`/`duplicado`
on success, `exito: False` with an error otherwise. -/
inductive RegResult where
  | ok (registro : RegistroTiempo) (duplicado : Bool)
  | err (e : RegError)
deriving Repr, DecidableEq

/-- `RegistroService.MAX_REGISTROS_POR_EQUIPO`. -/
def MAX_REGISTROS_POR_EQUIPO : Nat := 15

/-- The tail of `registrar_tiempo` from the record-count check on
(registro_service.py:92-130): limit check, then
`bulk_create([registro], ignore_conflicts=True)`, which inserts the row
only when its `record_id` is not already present and otherwise reports the
existing row as a duplicate.  `genId` is the `uuid.uuid4()` used when no
`record_id` was supplied. -/
def crearRegistro (st : Store) (equipoId time hours minutes seconds milliseconds : Nat)
    (recordId : Option Nat) (genId : Nat) : RegResult × Store :=
  let numRegistros := st.countTeam equipoId
  if MAX_REGISTROS_POR_EQUIPO ≤ numRegistros then
    (.err .limiteAlcanzado, st)
  else
    let registro : RegistroTiempo :=
      ⟨recordId.getD genId, equipoId, time, hours, minutes, seconds, milliseconds⟩
    match st.findRegistro registro.recordId with
    | some existente => (.ok existente true, st)
    | none =>
      (.ok registro false, { st with registros := st.registros ++ [registro] })

/-- `RegistroService.registrar_tiempo` (registro_service.py:11-136).
`recordId` is the optional idempotency key, `genId` the fresh UUID used
when it is absent. -/
def registrarTiempo (st : Store) (juezId equipoId time : Nat)
    (hours minutes seconds milliseconds : Nat)
    (recordId : Option Nat) (genId : Nat) : RegResult × Store :=
  match st.findJuez juezId with
  | none => (.err .juezNoEncontrado, st)
  | some _ =>
    match (st.equiposDeJuez juezId).head? with
    | none => (.err .sinEquipos, st)
    | some primero =>
      match st.findCompetencia primero.competition with
      | none => (.err .compNoEnCurso, st)
      | some competenciaJuez =>
        if !competenciaJuez.isRunning then
          (.err .compNoEnCurso, st)
        else
          match st.findEquipo equipoId with
          | none => (.err .equipoNoExiste, st)
          | some equipo =>
            if !(equipo.judge = some juezId) then
              (.err .equipoAjeno, st)
            else
              match recordId with
              | some rid =>
                match st.findRegistro rid with
                | some existente => (.ok existente true, st)
                | none =>
                  crearRegistro st equipoId time hours minutes seconds milliseconds
                    (some rid) genId
              | none =>
                crearRegistro st equipoId time hours minutes seconds milliseconds
                  none genId

/-- One element of the `registros` list handed to the batch operation
(`reg.get('tiempo')`, `reg.get('id_registro')`, component defaults 0). -/
structure BatchReg where
  idRegistro : Option Nat
  tiempo : Option Nat
  horas : Nat
  minutos : Nat
  segundos : Nat
  milisegundos : Nat
deriving Repr, DecidableEq

/-- Per-item failure reasons of `_registrar_batch_impl`. -/
inductive BatchError where
  | juezNoEncontrado
  | sinEquipos
  | compNoEnCurso
  | equipoNoExiste
  | equipoAjeno
  /-- 'El equipo ya tiene N registros guardados. No se permiten envíos adicionales.' -/
  | yaTieneRegistros (n : Nat)
  /-- 'Falta el campo tiempo' -/
  | faltaTiempo
  /-- 'Se alcanzó el límite de 15 registros' -/
  | limiteAlcanzado
deriving Repr, DecidableEq

/-- An entry of `registros_fallidos`. -/
structure ItemFallido where
  indice : Nat
  error : BatchError
deriving Repr, DecidableEq

/-- An entry of `registros_guardados`. -/
structure ItemGuardado where
  indice : Nat
  idRegistro : Nat
  tiempo : Nat
  duplicado : Bool
deriving Repr, DecidableEq

/-- The summary dict returned by `_registrar_batch_impl`. -/
structure BatchResult where
  totalEnviados : Nat
  totalGuardados : Nat
  totalFallidos : Nat
  registrosGuardados : List ItemGuardado
  registrosFallidos : List ItemFallido
deriving Repr, DecidableEq

/-- All items of a batch rejected with the same error (the early-return
dicts of `_registrar_batch_impl`). -/
def batchTodoFallido (n : Nat) (e : BatchError) : BatchResult :=
  ⟨n, 0, n, [], (List.range n).map (fun i => ⟨i, e⟩)⟩

/-- The queueing loop of `_registrar_batch_impl`
(registro_service.py:262-284): items missing `tiempo` fail, the per-item
virtual count `num_registros_actuales + len(registros_a_crear)` guards the
15-record cap, the rest are turned into `RegistroTiempo` instances paired
with their original index (`mapping_idx_registro`).  `genIds idx` is the
`uuid.uuid4()` generated for item `idx` when it has no `id_registro`. -/
def encolarRegistros (numActuales equipoId : Nat) (genIds : Nat → Nat) :
    List (Nat × BatchReg) → List (Nat × RegistroTiempo) → List ItemFallido →
    List (Nat × RegistroTiempo) × List ItemFallido
  | [], aCrear, fallidos => (aCrear, fallidos)
  | (idx, reg) :: rest, aCrear, fallidos =>
    match reg.tiempo with
    | none =>
      encolarRegistros numActuales equipoId genIds rest aCrear
        (fallidos ++ [⟨idx, .faltaTiempo⟩])
    | some time =>
      if MAX_REGISTROS_POR_EQUIPO ≤ numActuales + aCrear.length then
        encolarRegistros numActuales equipoId genIds rest aCrear
          (fallidos ++ [⟨idx, .limiteAlcanzado⟩])
      else
        let registroObj : RegistroTiempo :=
          ⟨reg.idRegistro.getD (genIds idx), equipoId, time,
            reg.horas, reg.minutos, reg.segundos, reg.milisegundos⟩
        encolarRegistros numActuales equipoId genIds rest
          (aCrear ++ [(idx, registroObj)]) fallidos

/-- `bulk_create(objs, ignore_conflicts=True)`: insert the rows in order,
silently skipping any whose `record_id` is already present; returns the
rows actually inserted (the set the code's comment 'los no creados son
duplicados' expects) together with the new store. -/
def bulkCreate (st : Store) : List RegistroTiempo → List RegistroTiempo × Store
  | [] => ([], st)
  | r :: rs =>
    match st.findRegistro r.recordId with
    | some _ => bulkCreate st rs
    | none =>
      let (creados, st') := bulkCreate { st with registros := st.registros ++ [r] } rs
      (r :: creados, st')

/-- `RegistroService._registrar_batch_impl` (registro_service.py:162-337). -/
def registrarBatch (st : Store) (juezId equipoId : Nat)
    (registros : List BatchReg) (genIds : Nat → Nat) : BatchResult × Store :=
  let n := registros.length
  match st.findJuez juezId with
  | none => (batchTodoFallido n .juezNoEncontrado, st)
  | some _ =>
    match (st.equiposDeJuez juezId).head? with
    | none => (batchTodoFallido n .sinEquipos, st)
    | some primero =>
      match st.findCompetencia primero.competition with
      | none => (batchTodoFallido n .compNoEnCurso, st)
      | some competenciaJuez =>
        if !competenciaJuez.isRunning then
          (batchTodoFallido n .compNoEnCurso, st)
        else
          match st.findEquipo equipoId with
          | none => (batchTodoFallido n .equipoNoExiste, st)
          | some equipo =>
            if !(equipo.judge = some juezId) then
              (batchTodoFallido n .equipoAjeno, st)
            else
              let numActuales := st.countTeam equipoId
              if 0 < numActuales then
                (batchTodoFallido n (.yaTieneRegistros numActuales), st)
              else
                let (mapping, fallidos) :=
                  encolarRegistros numActuales equipoId genIds
                    registros.enum [] []
                if mapping = [] then
                  (⟨n, 0, fallidos.length, [], fallidos⟩, st)
                else
                  let (creados, st') := bulkCreate st (mapping.map (·.2))
                  let creadosIds := creados.map (·.recordId)
                  let guardados := mapping.map (fun p =>
                    (⟨p.1, p.2.recordId, p.2.time,
                      !(creadosIds.contains p.2.recordId)⟩ : ItemGuardado))
                  (⟨n, creados.length, fallidos.length, guardados, fallidos⟩, st')

/-- A registration operation: one single-record call or one batch call,
with the fresh UUIDs it would draw. -/
inductive RegOp where
  | single (juezId equipoId time hours minutes seconds milliseconds : Nat)
      (recordId : Option Nat) (genId : Nat)
  | batch (juezId equipoId : Nat) (registros : List BatchReg) (genIds : Nat → Nat)

def applyRegOp (st : Store) : RegOp → Store
  | .single juezId equipoId time h m s ms recordId genId =>
    (registrarTiempo st juezId equipoId time h m s ms recordId genId).2
  | .batch juezId equipoId registros genIds =>
    (registrarBatch st juezId equipoId registros genIds).2

def execReg (st : Store) : List RegOp → Store
  | [] => st
  | op :: ops => execReg (applyRegOp st op) ops

/-! ## RegistroTiempo.save component/total reconciliation (models.py:215-251) -/

/-- The components derived from a total, as computed in the `else` branch
of `RegistroTiempo.save`: `(hours, minutes, seconds, milliseconds)`. -/
def derivarComponentes (total : Nat) : Nat × Nat × Nat × Nat :=
  let ms := total % 1000
  let totalSeconds := total / 1000
  let s := totalSeconds % 60
  let totalMinutes := totalSeconds / 60
  let m := totalMinutes % 60
  let h := totalMinutes / 60
  (h, m, s, ms)

/-- `RegistroTiempo.save` (models.py:215-251): if any granular field is
non-zero, recompute the total from them; otherwise derive the granular
fields from the total. -/
def RegistroTiempo.save (r : RegistroTiempo) : RegistroTiempo :=
  if r.hours ≠ 0 ∨ r.minutes ≠ 0 ∨ r.seconds ≠ 0 ∨ r.milliseconds ≠ 0 then
    { r with time := (r.hours * 3600 + r.minutes * 60 + r.seconds) * 1000 + r.milliseconds }
  else
    let c := derivarComponentes r.time
    { r with hours := c.1, minutes := c.2.1, seconds := c.2.2.1,
             milliseconds := c.2.2.2 }

/-- The documented invariant:
`total_ms == ((hours*3600+minutes*60+seconds)*1000 + milliseconds)`. -/
def invarianteTiempo (r : RegistroTiempo) : Prop :=
  r.time = (r.hours * 3600 + r.minutes * 60 + r.seconds) * 1000 + r.milliseconds

instance (r : RegistroTiempo) : Decidable (invarianteTiempo r) := by
  unfold invarianteTiempo; infer_instance

/-! ## Results aggregation (_procesar_equipos, html_views.py:18-71) -/

/-- A team together with its prefetched time records
(`equipo.prefetched_tiempos`, queryset ordered by `time`). -/
structure EquipoConTiempos where
  equipo : Equipo
  tiempos : List RegistroTiempo
deriving Repr, DecidableEq

/-- The attributes `_procesar_equipos` attaches to each team
(`posicion` is 0 until assigned). -/
structure EquipoProcesado where
  equipo : Equipo
  jugadoresAusentes : Nat
  descalificado : Bool
  tiempoTotalMs : Nat
  mejorTiempoMs : Nat
  tiempoTotalFormateado : String
  mejorTiempoFormateado : String
  numRegistros : Nat
  jugadoresCompletados : Nat
  posicion : Nat
deriving Repr, DecidableEq

/-- Zero-padded two-digit rendering, as the `{h:02d}` format spec. -/
def pad2 (n : Nat) : String :=
  if n < 10 then "0" ++ toString n else toString n

/-- `f"{h:02d}:{m:02d}:{s:02d}"` computed from a total in milliseconds. -/
def formatearHMS (ms : Nat) : String :=
  let totalSeconds := ms / 1000
  let s := totalSeconds % 60
  let totalMinutes := totalSeconds / 60
  let m := totalMinutes % 60
  let h := totalMinutes / 60
  pad2 h ++ ":" ++ pad2 m ++ ":" ++ pad2 s

/-- The per-team body of the `_procesar_equipos` loop. -/
def procesarUno (e : EquipoConTiempos) : EquipoProcesado :=
  let tiempos := e.tiempos
  let jugadoresAusentes := (tiempos.filter (fun t => t.time = 0)).length
  let descalificado := 0 < jugadoresAusentes
  let tiempoTotalMs := if tiempos ≠ [] then (tiempos.map (·.time)).sum else 0
  let positivos := (tiempos.map (·.time)).filter (fun t => 0 < t)
  let mejorTiempoMs := if tiempos ≠ [] then (positivos.min?).getD 0 else 0
  { equipo := e.equipo
    jugadoresAusentes := jugadoresAusentes
    descalificado := descalificado
    tiempoTotalMs := tiempoTotalMs
    mejorTiempoMs := mejorTiempoMs
    tiempoTotalFormateado := formatearHMS tiempoTotalMs
    mejorTiempoFormateado := formatearHMS mejorTiempoMs
    numRegistros := tiempos.length
    jugadoresCompletados := tiempos.length - jugadoresAusentes
    posicion := 0 }

/-- The Python sort key of the qualified partition,
`e.tiempo_total_ms if e.tiempo_total_ms > 0 else float('inf')`:
`none` plays the role of infinity. -/
def claveCalificado (e : EquipoProcesado) : Option Nat :=
  if 0 < e.tiempoTotalMs then some e.tiempoTotalMs else none

/-- Comparison used to sort the qualified partition. -/
def leCalificados (a b : EquipoProcesado) : Bool :=
  match claveCalificado a, claveCalificado b with
  | some x, some y => x ≤ y
  | some _, none => true
  | none, some _ => false
  | none, none => true

/-- Comparison used to sort the disqualified partition
(`key=lambda e: e.tiempo_total_ms`). -/
def leDescalificados (a b : EquipoProcesado) : Bool :=
  a.tiempoTotalMs ≤ b.tiempoTotalMs

/-- `for idx, equipo in enumerate(equipos_calificados, 1): equipo.posicion = idx`. -/
def asignarPosiciones : Nat → List EquipoProcesado → List EquipoProcesado
  | _, [] => []
  | i, e :: rest => { e with posicion := i } :: asignarPosiciones (i + 1) rest

/-- `_procesar_equipos` (html_views.py:18-71): process each team, split
into qualified/disqualified preserving input order, stably sort each
partition, number the qualified ones. -/
def procesarEquipos (entrada : List EquipoConTiempos) :
    List EquipoProcesado × List EquipoProcesado :=
  let procesados := entrada.map procesarUno
  let equiposCalificados :=
    ordenarEstable leCalificados (procesados.filter (fun e => !e.descalificado))
  let equiposDescalificados :=
    ordenarEstable leDescalificados (procesados.filter (fun e => e.descalificado))
  (asignarPosiciones 1 equiposCalificados, equiposDescalificados)

/-- `equipos_list = equipos_calificados + equipos_descalificados`
(competencia_detail_view, html_views.py:95). -/
def listaEquipos (entrada : List EquipoConTiempos) : List EquipoProcesado :=
  (procesarEquipos entrada).1 ++ (procesarEquipos entrada).2

/-! ## Records-status query (EstadoEquipoRegistrosView, registro_views.py:185-228) -/

/-- The JSON body returned by `EstadoEquipoRegistrosView.get`. -/
structure EstadoRegistros where
  equipoId : Nat
  equipoNombre : String
  totalRegistros : Nat
  maximoRegistros : Nat
  puedeEnviar : Bool
  registros : List RegistroTiempo
deriving Repr, DecidableEq

/-- `EstadoEquipoRegistrosView.get`: 404 (`none`) when the team does not
exist, otherwise the count, the cap, `puede_enviar = (count == 0)` and the
records ordered by time. -/
def estadoEquipoRegistros (st : Store) (equipoId : Nat) : Option EstadoRegistros :=
  match st.findEquipo equipoId with
  | none => none
  | some equipo =>
    let totalRegistros := st.countTeam equipoId
    let registros := ordenarEstable (fun a b => a.time ≤ b.time)
      (st.registros.filter (fun r => r.team = equipoId))
    some ⟨equipo.id, equipo.name, totalRegistros, 15, totalRegistros == 0, registros⟩

/-! ## Example fixtures used by concrete witnesses and counterexamples -/

/-- A running competition. -/
def compEnCurso : Competencia := ⟨1, "Carrera 5K", true, true, some 10, none⟩

/-- A scheduled, active competition. -/
def compProgramada : Competencia := ⟨2, "Relevos", true, false, none, none⟩

/-- A scheduled competition flagged inactive. -/
def compInactiva : Competencia := ⟨2, "Relevos", false, false, none, none⟩

/-- Judge 7 assigned to team 42 of the running competition. -/
def juez7 : Juez := ⟨7, "juez7", true⟩

def equipo42 : Equipo := ⟨42, "Los Veloces", 10, "estudiantes", 1, some 7⟩

/-- Store with one running competition, one scheduled one, judge 7 owning
team 42, and no records. -/
def stBase : Store := ⟨[compEnCurso, compProgramada], [juez7], [equipo42], []⟩

/-- Store whose only non-running competition is inactive. -/
def stInactiva : Store := ⟨[compEnCurso, compInactiva], [juez7], [equipo42], []⟩

/-- Store with only the running competition, judge 7, team 42, no records. -/
def stRegistro : Store := ⟨[compEnCurso], [juez7], [equipo42], []⟩

/-- A batch of 15 records with distinct ids 1..15 and times 1000,...,15000. -/
def batch15 : List BatchReg :=
  (List.range 15).map (fun i => ⟨some (i + 1), some (1000 * (i + 1)), 0, 0, 0, 0⟩)

/-! ## General lemmas -/

/-- Well-formedness of the competition table: primary keys are unique. -/
def WF (st : Store) : Prop := (st.competencias.map (·.id)).Nodup

instance (st : Store) : Decidable (WF st) := by
  unfold WF; infer_instance

theorem find?_id_unique {l : List Competencia} {c : Competencia} {cid : Nat}
    (hnd : (l.map (·.id)).Nodup) (hmem : c ∈ l) (hid : c.id = cid) :
    l.find? (fun x => x.id = cid) = some c := by
  induction l with
  | nil => cases hmem
  | cons h t ih =>
    simp only [List.map_cons, List.nodup_cons] at hnd
    rcases List.mem_cons.mp hmem with rfl | hct
    · simp [List.find?_cons, hid]
    · have hne : h.id ≠ cid := by
        intro he
        have : c.id ∈ List.map (fun x => x.id) t := List.mem_map_of_mem (fun x => x.id) hct
        rw [hid, ← he] at this
        exact hnd.1 this
      simp only [List.find?_cons, decide_eq_false hne]
      exact ih hnd.2 hct

theorem saveCompetencia_ids (st : Store) (c : Competencia) :
    (st.saveCompetencia c).competencias.map (·.id) = st.competencias.map (·.id) := by
  simp only [Store.saveCompetencia]
  induction st.competencias with
  | nil => rfl
  | cons h t ih =>
    simp only [List.map_cons, List.map_map] at ih ⊢
    by_cases hc : h.id = c.id
    · simp [hc, ih]
    · simp [hc, ih]

theorem countP_le_one_of_nodup_map {α : Type} {f : α → Nat} {l : List α}
    (hnd : (l.map f).Nodup) (a : Nat) :
    l.countP (fun x => f x = a) ≤ 1 := by
  induction l with
  | nil => simp
  | cons h t ih =>
    simp only [List.map_cons, List.nodup_cons] at hnd
    by_cases hfa : f h = a
    · have hzero : t.countP (fun x => f x = a) = 0 := by
        rw [List.countP_eq_zero]
        intro x hx
        simp only [decide_eq_true_eq]
        intro hxa
        exact hnd.1 (hfa ▸ hxa ▸ List.mem_map_of_mem f hx)
      simp [List.countP_cons, hfa, hzero]
    · simp only [List.countP_cons, decide_eq_true_eq, hfa]
      simpa using ih hnd.2

theorem countRunning_save_le_one (st : Store) (c : Competencia)
    (hwf : WF st)
    (hall : ∀ x ∈ st.competencias, x.isRunning = true → x.id = c.id) :
    (st.saveCompetencia c).countRunning ≤ 1 := by
  simp only [Store.countRunning, Store.saveCompetencia,
    ← List.countP_eq_length_filter, List.countP_map]
  calc st.competencias.countP
        ((fun y => y.isRunning) ∘ (fun x => if x.id = c.id then c else x))
      ≤ st.competencias.countP (fun x => decide (x.id = c.id)) := by
        apply List.countP_mono_left
        intro x hx hpx
        simp only [decide_eq_true_eq]
        by_cases hid : x.id = c.id
        · exact hid
        · simp only [Function.comp, if_neg hid] at hpx
          exact absurd (hall x hx hpx) hid
    _ ≤ 1 := countP_le_one_of_nodup_map hwf c.id

theorem countRunning_save_stop_le (st : Store) (c : Competencia)
    (hstop : c.isRunning = false) :
    (st.saveCompetencia c).countRunning ≤ st.countRunning := by
  simp only [Store.countRunning, Store.saveCompetencia,
    ← List.countP_eq_length_filter, List.countP_map]
  apply List.countP_mono_left
  intro x _ hpx
  by_cases hid : x.id = c.id
  · simp only [Function.comp, if_pos hid, hstop] at hpx
    cases hpx
  · simpa only [Function.comp, if_neg hid] using hpx

/-- Every lifecycle entry point either leaves the store alone, saves a
found, previously non-running competition as running (with no other one
running), or saves a found competition as stopped. -/
theorem applyLifeOp_cases (st : Store) (op : LifeOp) :
    applyLifeOp st op = st
    ∨ (∃ competencia, competencia ∈ st.competencias ∧ ∃ now,
        competencia.isRunning = false
        ∧ st.otraEnCurso competencia.id = none
        ∧ applyLifeOp st op =
            st.saveCompetencia { competencia with isRunning := true, startedAt := some now })
    ∨ (∃ competencia, competencia ∈ st.competencias ∧ ∃ now,
        applyLifeOp st op =
            st.saveCompetencia { competencia with isRunning := false, finishedAt := some now }) := by
  cases op with
  | startService cid now =>
    simp only [applyLifeOp, iniciarCompetencia]
    cases hfind : st.findCompetencia cid with
    | none => exact Or.inl rfl
    | some competencia =>
      have hmem : competencia ∈ st.competencias := List.mem_of_find?_eq_some hfind
      have hid : competencia.id = cid := by
        have := List.find?_some hfind
        simpa using this
      cases hrun : competencia.isRunning with
      | true => exact Or.inl (by simp [hrun])
      | false =>
        cases hact : competencia.isActive with
        | false => exact Or.inl (by simp [hrun, hact])
        | true =>
          cases hotra : st.otraEnCurso cid with
          | some otra => exact Or.inl (by simp [hrun, hact, hotra])
          | none =>
            refine Or.inr (Or.inl ⟨competencia, hmem, now, hrun, ?_, ?_⟩)
            · rw [hid]; exact hotra
            · simp [hrun, hact, hotra]
  | startAdmin cid now =>
    simp only [applyLifeOp, adminStart]
    cases hfind : st.findCompetencia cid with
    | none => exact Or.inl rfl
    | some competencia =>
      have hmem : competencia ∈ st.competencias := List.mem_of_find?_eq_some hfind
      simp only [Competencia.start]
      cases hrun : competencia.isRunning with
      | true => exact Or.inl (by simp [hrun])
      | false =>
        cases hotra : st.otraEnCurso competencia.id with
        | some otra => exact Or.inl (by simp [hrun, hotra])
        | none =>
          refine Or.inr (Or.inl ⟨competencia, hmem, now, hrun, hotra, ?_⟩)
          simp [hrun, hotra]
  | stopService cid now =>
    simp only [applyLifeOp, detenerCompetencia]
    cases hfind : st.findCompetencia cid with
    | none => exact Or.inl rfl
    | some competencia =>
      have hmem : competencia ∈ st.competencias := List.mem_of_find?_eq_some hfind
      cases hrun : competencia.isRunning with
      | true =>
        refine Or.inr (Or.inr ⟨competencia, hmem, now, ?_⟩)
        simp [hrun]
      | false => exact Or.inl (by simp [hrun])
  | stopAdmin cid now =>
    simp only [applyLifeOp, adminStop]
    cases hfind : st.findCompetencia cid with
    | none => exact Or.inl rfl
    | some competencia =>
      have hmem : competencia ∈ st.competencias := List.mem_of_find?_eq_some hfind
      simp only [Competencia.stop]
      cases hrun : competencia.isRunning with
      | true =>
        refine Or.inr (Or.inr ⟨competencia, hmem, now, ?_⟩)
        simp [hrun]
      | false => exact Or.inl (by simp [hrun])

theorem applyLifeOp_preserva (st : Store) (op : LifeOp)
    (hwf : WF st) (hinv : st.countRunning ≤ 1) :
    WF (applyLifeOp st op) ∧ (applyLifeOp st op).countRunning ≤ 1 := by
  rcases applyLifeOp_cases st op with heq | ⟨c, _, now, hnr, hotra, heq⟩ | ⟨c, _, now, heq⟩
  · rw [heq]; exact ⟨hwf, hinv⟩
  · rw [heq]
    constructor
    · unfold WF
      rw [saveCompetencia_ids]
      exact hwf
    · apply countRunning_save_le_one _ _ hwf
      intro x hx hxr
      have hfil : st.competencias.filter (fun x => x.isRunning && !(x.id = c.id)) = [] := by
        have := hotra
        simp only [Store.otraEnCurso, List.head?_eq_none_iff] at this
        exact this
      by_contra hne
      have hxin : x ∈ st.competencias.filter (fun x => x.isRunning && !(x.id = c.id)) := by
        rw [List.mem_filter]
        refine ⟨hx, ?_⟩
        simp [hxr, hne]
      rw [hfil] at hxin
      cases hxin
  · rw [heq]
    constructor
    · unfold WF
      rw [saveCompetencia_ids]
      exact hwf
    · exact le_trans (countRunning_save_stop_le st _ rfl) hinv

theorem execLife_inv (ops : List LifeOp) (st : Store)
    (hwf : WF st) (hinv : st.countRunning ≤ 1) :
    (execLife st ops).countRunning ≤ 1 := by
  induction ops generalizing st with
  | nil => exact hinv
  | cons op ops ih =>
    have h := applyLifeOp_preserva st op hwf hinv
    exact ih (applyLifeOp st op) h.1 h.2

theorem mem_of_length_le_one {α : Type} {l : List α} {a b : α}
    (hlen : l.length ≤ 1) (ha : a ∈ l) (hb : b ∈ l) : a = b := by
  match l with
  | [] => cases ha
  | [x] =>
    rw [List.mem_singleton] at ha hb
    rw [ha, hb]
  | x :: y :: t => simp at hlen

/-- With at most one competition running, `otra` running and of a
different id, the `exclude(id=cid)`-filter is exactly `[otra]`. -/
theorem filter_otra_single {l : List Competencia} {otra : Competencia} {cid : Nat}
    (hlen : (l.filter (fun x => x.isRunning)).length ≤ 1)
    (hmem : otra ∈ l) (hrun : otra.isRunning = true) (hne : otra.id ≠ cid) :
    l.filter (fun x => x.isRunning && !(x.id = cid)) = [otra] := by
  induction l with
  | nil => cases hmem
  | cons h t ih =>
    by_cases hhr : h.isRunning
    · have hfe : t.filter (fun x => x.isRunning) = [] := by
        have : (List.filter (fun x => x.isRunning) (h :: t)).length ≤ 1 := hlen
        rw [List.filter_cons_of_pos (by simpa using hhr)] at this
        simp only [List.length_cons] at this
        exact List.length_eq_zero.mp (by omega)
      have hoh : otra = h := by
        rcases List.mem_cons.mp hmem with rfl | hot
        · rfl
        · exfalso
          have : otra ∈ t.filter (fun x => x.isRunning) :=
            List.mem_filter.mpr ⟨hot, by simpa using hrun⟩
          rw [hfe] at this
          cases this
      subst hoh
      rw [List.filter_cons_of_pos (by simp [hrun, hne])]
      have hrest : t.filter (fun x => x.isRunning && !(x.id = cid)) = [] := by
        rw [List.filter_eq_nil_iff]
        intro x hx
        intro hpx
        have hxr : x.isRunning = true := by
          revert hpx
          cases x.isRunning <;> simp
        have : x ∈ t.filter (fun y => y.isRunning) :=
          List.mem_filter.mpr ⟨hx, by simpa using hxr⟩
        rw [hfe] at this
        cases this
      rw [hrest]
    · have hoh : otra ∈ t := by
        rcases List.mem_cons.mp hmem with rfl | hot
        · exact absurd hrun (by simpa using hhr)
        · exact hot
      have hlen' : (t.filter (fun x => x.isRunning)).length ≤ 1 := by
        have : (List.filter (fun x => x.isRunning) (h :: t)).length ≤ 1 := hlen
        rwa [List.filter_cons_of_neg (by simpa using hhr)] at this
      rw [List.filter_cons_of_neg (by simp [Bool.eq_false_iff.mpr hhr])]
      exact ih hlen' hoh

/-- C1: from any well-formed state with no running competition, every
sequence of lifecycle operations (service or admin start/stop) keeps at
most one competition running; and when some other competition is running,
`start` on a (non-running) target fails — through the admin/model path with
the `another_running` (ConflictingCompetition) result — and leaves the
store untouched, publishing nothing; the service path likewise fails
without ever returning success. -/
theorem claim_c1 :
    (∀ st0 ops, WF st0 → st0.countRunning = 0 →
      (execLife st0 ops).countRunning ≤ 1)
    ∧ (∀ st cid now competencia otra,
        WF st → st.countRunning ≤ 1 →
        competencia ∈ st.competencias → competencia.id = cid →
        otra ∈ st.competencias → otra.isRunning = true → otra.id ≠ cid →
        adminStart st cid now = (.conflicting otra, st, [])
        ∧ ∃ e, iniciarCompetencia st cid now = (e, st, [])
            ∧ ∀ c, e ≠ LifeResult.ok c) := by
  constructor
  · intro st0 ops hwf hzero
    exact execLife_inv ops st0 hwf (by omega)
  · intro st cid now competencia otra hwf hinv hmem hid homem horun hone
    have hfind : st.findCompetencia cid = some competencia :=
      find?_id_unique hwf hmem hid
    have hcrun : competencia.isRunning = false := by
      by_contra hc
      have hcr : competencia.isRunning = true := by
        revert hc; cases competencia.isRunning <;> simp
      have h1 : competencia ∈ st.competencias.filter (fun x => x.isRunning) :=
        List.mem_filter.mpr ⟨hmem, by simpa using hcr⟩
      have h2 : otra ∈ st.competencias.filter (fun x => x.isRunning) :=
        List.mem_filter.mpr ⟨homem, by simpa using horun⟩
      have := mem_of_length_le_one hinv h1 h2
      rw [this] at hid
      exact hone (hid ▸ rfl)
    have hotra : st.otraEnCurso cid = some otra := by
      unfold Store.otraEnCurso
      rw [filter_otra_single hinv homem horun hone]
      rfl
    have hotra' : st.otraEnCurso competencia.id = some otra := by
      rw [hid]; exact hotra
    constructor
    · simp [adminStart, hfind, Competencia.start, hcrun, hotra']
    · cases hact : competencia.isActive with
      | true =>
        refine ⟨.conflicting otra, ?_, by intro c h; cases h⟩
        simp [iniciarCompetencia, hfind, hcrun, hact, hotra]
      | false =>
        refine ⟨.notActive, ?_, by intro c h; cases h⟩
        simp [iniciarCompetencia, hfind, hcrun, hact]

/-- C1 witness: a concrete run of lifecycle operations stays within the
invariant, and a concrete conflicting start is rejected untouched. -/
theorem claim_c1_witness :
    (execLife ⟨[compProgramada], [], [], []⟩
        [LifeOp.startService 2 5, LifeOp.stopService 2 9,
         LifeOp.startAdmin 2 12]).countRunning ≤ 1
    ∧ adminStart stInactiva 2 99 = (.conflicting compEnCurso, stInactiva, []) :=
  ⟨claim_c1.1 ⟨[compProgramada], [], [], []⟩
      [LifeOp.startService 2 5, LifeOp.stopService 2 9, LifeOp.startAdmin 2 12]
      (by decide) (by decide),
   (claim_c1.2 stInactiva 2 99 compInactiva compEnCurso (by decide) (by decide)
      (by decide) (by decide) (by decide) (by decide) (by decide)).1⟩

theorem otraEnCurso_spec {st : Store} {cid : Nat} {otra : Competencia}
    (h : st.otraEnCurso cid = some otra) :
    otra ∈ st.competencias ∧ otra.isRunning = true ∧ otra.id ≠ cid := by
  unfold Store.otraEnCurso at h
  have hmem : otra ∈ st.competencias.filter (fun x => x.isRunning && !(x.id = cid)) := by
    cases hl : st.competencias.filter (fun x => x.isRunning && !(x.id = cid)) with
    | nil => rw [hl] at h; exact absurd h (by simp)
    | cons a t =>
      rw [hl] at h
      simp only [List.head?_cons, Option.some.injEq] at h
      rw [← h]
      exact List.mem_cons_self a t
  have hp := (List.mem_filter.mp hmem).2
  simp only [Bool.and_eq_true, Bool.not_eq_true', decide_eq_false_iff_not] at hp
  exact ⟨(List.mem_filter.mp hmem).1, hp.1, hp.2⟩

/-- C5 (amended): `iniciar_competencia` on an existing competition fails
with AlreadyRunning exactly when the target is running; otherwise fails
with a not-active error when the target's `is_active` is false; otherwise
fails with ConflictingCompetition exactly when another competition is
running; otherwise succeeds, setting `is_running`/`started_at`, persisting
and publishing one `competencia_iniciada` event to the target's group —
and no other failure condition exists for an existing competition. -/
theorem claim_c5_amended (st : Store) (cid now : Nat) (competencia : Competencia)
    (hwf : WF st) (hmem : competencia ∈ st.competencias) (hid : competencia.id = cid) :
    (competencia.isRunning = true →
        iniciarCompetencia st cid now = (.alreadyRunning, st, []))
    ∧ (competencia.isRunning = false → competencia.isActive = false →
        iniciarCompetencia st cid now = (.notActive, st, []))
    ∧ (∀ otra, competencia.isRunning = false → competencia.isActive = true →
        st.otraEnCurso cid = some otra →
        iniciarCompetencia st cid now = (.conflicting otra, st, [])
        ∧ otra ∈ st.competencias ∧ otra.isRunning = true ∧ otra.id ≠ cid)
    ∧ (competencia.isRunning = false → competencia.isActive = true →
        st.otraEnCurso cid = none →
        iniciarCompetencia st cid now =
          (.ok { competencia with isRunning := true, startedAt := some now },
           st.saveCompetencia { competencia with isRunning := true, startedAt := some now },
           [⟨cid, "competencia_iniciada", competencia.name, true, some now, none⟩]))
    ∧ (st.otraEnCurso cid = none ↔
        ∀ x ∈ st.competencias, x.isRunning = true → x.id = cid) := by
  have hfind : st.findCompetencia cid = some competencia :=
    find?_id_unique hwf hmem hid
  refine ⟨?_, ?_, ?_, ?_, ?_⟩
  · intro hrun
    simp [iniciarCompetencia, hfind, hrun]
  · intro hrun hact
    simp [iniciarCompetencia, hfind, hrun, hact]
  · intro otra hrun hact hotra
    have hspec := otraEnCurso_spec hotra
    refine ⟨?_, hspec.1, hspec.2.1, hspec.2.2⟩
    simp [iniciarCompetencia, hfind, hrun, hact, hotra]
  · intro hrun hact hotra
    simp [iniciarCompetencia, hfind, hrun, hact, hotra, hid]
  · unfold Store.otraEnCurso
    rw [List.head?_eq_none_iff, List.filter_eq_nil_iff]
    constructor
    · intro hall x hx hxr
      have := hall x hx
      simp [hxr] at this
      exact this
    · intro hall x hx
      simp only [Bool.and_eq_true, Bool.not_eq_true', decide_eq_false_iff_not,
        not_and, not_not]
      intro hxr
      exact hall x hx hxr

/-- Store in which no competition is running and competition 2 exists but
is flagged inactive. -/
def stSinCurso : Store :=
  ⟨[⟨1, "Carrera 5K", true, false, none, some 20⟩, compInactiva], [juez7], [equipo42], []⟩

/-- Store with a single active, scheduled competition. -/
def stSolo : Store := ⟨[compProgramada], [juez7], [equipo42], []⟩

/-- C5 counterexample: competition 2 exists, is not running, and no other
competition is running, yet `iniciar_competencia` does not succeed — it
fails with the not-active error, a failure condition the claim excludes. -/
theorem claim_c5_counterexample :
    stSinCurso.findCompetencia 2 = some compInactiva
    ∧ compInactiva.isRunning = false
    ∧ stSinCurso.otraEnCurso 2 = none
    ∧ (iniciarCompetencia stSinCurso 2 99).1 = .notActive
    ∧ (iniciarCompetencia stSinCurso 2 99).2.1 = stSinCurso := by
  refine ⟨rfl, rfl, rfl, rfl, rfl⟩

/-- C5 witness: the failure branches and the success branch of the amended
characterisation, at concrete stores. -/
theorem claim_c5_witness :
    iniciarCompetencia stSinCurso 2 99 = (.notActive, stSinCurso, [])
    ∧ iniciarCompetencia stBase 2 77 = (.conflicting compEnCurso, stBase, [])
    ∧ iniciarCompetencia stSolo 2 88 =
        (.ok { compProgramada with isRunning := true, startedAt := some 88 },
         stSolo.saveCompetencia { compProgramada with isRunning := true, startedAt := some 88 },
         [⟨2, "competencia_iniciada", compProgramada.name, true, some 88, none⟩]) :=
  ⟨(claim_c5_amended stSinCurso 2 99 compInactiva (by decide) (by decide)
      (by decide)).2.1 rfl rfl,
   ((claim_c5_amended stBase 2 77 compProgramada (by decide) (by decide)
      (by decide)).2.2.1 compEnCurso rfl rfl rfl).1,
   (claim_c5_amended stSolo 2 88 compProgramada (by decide) (by decide)
      (by decide)).2.2.2.1 rfl rfl rfl⟩

/-- C6: calling start on a competition whose `is_running` is already true
returns the AlreadyRunning failure through both entry points, leaves every
competition (and the whole store) unchanged, and publishes nothing. -/
theorem claim_c6 (st : Store) (cid now : Nat) (competencia : Competencia)
    (hwf : WF st) (hmem : competencia ∈ st.competencias) (hid : competencia.id = cid)
    (hrun : competencia.isRunning = true) :
    iniciarCompetencia st cid now = (.alreadyRunning, st, [])
    ∧ competencia.start st now = (.alreadyRunning, st, []) := by
  have hfind : st.findCompetencia cid = some competencia :=
    find?_id_unique hwf hmem hid
  constructor
  · simp [iniciarCompetencia, hfind, hrun]
  · simp [Competencia.start, hrun]

/-- C6 witness: starting the already-running competition 1 of `stBase`. -/
theorem claim_c6_witness :
    iniciarCompetencia stBase 1 99 = (.alreadyRunning, stBase, [])
    ∧ compEnCurso.start stBase 99 = (.alreadyRunning, stBase, []) :=
  claim_c6 stBase 1 99 compEnCurso (by decide) (by decide) rfl rfl

/-! ## Registration-service lemmas -/

@[simp] theorem findJuez_set_registros (st : Store) (x : List RegistroTiempo) (jid : Nat) :
    Store.findJuez { st with registros := x } jid = st.findJuez jid := rfl

@[simp] theorem equiposDeJuez_set_registros (st : Store) (x : List RegistroTiempo) (jid : Nat) :
    Store.equiposDeJuez { st with registros := x } jid = st.equiposDeJuez jid := rfl

@[simp] theorem findCompetencia_set_registros (st : Store) (x : List RegistroTiempo) (cid : Nat) :
    Store.findCompetencia { st with registros := x } cid = st.findCompetencia cid := rfl

@[simp] theorem findEquipo_set_registros (st : Store) (x : List RegistroTiempo) (eid : Nat) :
    Store.findEquipo { st with registros := x } eid = st.findEquipo eid := rfl

/-- The per-team record-count invariant imposed by the 15-record cap. -/
def Inv15 (st : Store) : Prop :=
  ∀ tid, st.countTeam tid ≤ MAX_REGISTROS_POR_EQUIPO

/-- `registrar_tiempo` either leaves the record table unchanged or appends
one record for the target team after passing the `< 15` count check. -/
theorem registrarTiempo_registros (st : Store)
    (juezId equipoId time hours minutes seconds milliseconds : Nat)
    (recordId : Option Nat) (genId : Nat) :
    (registrarTiempo st juezId equipoId time hours minutes seconds milliseconds
        recordId genId).2 = st
    ∨ (∃ nuevo : RegistroTiempo, nuevo.team = equipoId
        ∧ (registrarTiempo st juezId equipoId time hours minutes seconds milliseconds
            recordId genId).2 = { st with registros := st.registros ++ [nuevo] }
        ∧ st.countTeam equipoId < MAX_REGISTROS_POR_EQUIPO) := by
  unfold registrarTiempo
  have hcrear : ∀ recId : Option Nat,
      (crearRegistro st equipoId time hours minutes seconds milliseconds recId genId).2 = st
      ∨ (∃ nuevo : RegistroTiempo, nuevo.team = equipoId
          ∧ (crearRegistro st equipoId time hours minutes seconds milliseconds recId genId).2
              = { st with registros := st.registros ++ [nuevo] }
          ∧ st.countTeam equipoId < MAX_REGISTROS_POR_EQUIPO) := by
    intro recId
    simp only [crearRegistro]
    by_cases hcnt : MAX_REGISTROS_POR_EQUIPO ≤ st.countTeam equipoId
    · rw [if_pos hcnt]
      exact Or.inl rfl
    · rw [if_neg hcnt]
      cases hf : st.findRegistro (recId.getD genId) with
      | some existente => exact Or.inl rfl
      | none => exact Or.inr ⟨_, rfl, rfl, by omega⟩
  cases hJ : st.findJuez juezId with
  | none => exact Or.inl rfl
  | some juez =>
  try simp only []
  cases hH : (st.equiposDeJuez juezId).head? with
  | none => exact Or.inl rfl
  | some primero =>
  try simp only []
  cases hC : st.findCompetencia primero.competition with
  | none => exact Or.inl rfl
  | some competenciaJuez =>
  try simp only []
  cases hR : competenciaJuez.isRunning with
  | false => exact Or.inl (by simp [hR])
  | true =>
  simp only [hR, Bool.not_true, Bool.false_eq_true, if_false]
  cases hE : st.findEquipo equipoId with
  | none => exact Or.inl rfl
  | some equipo =>
  try simp only []
  by_cases hj : equipo.judge = some juezId
  · have hj2 : decide (equipo.judge = some juezId) = true := decide_eq_true hj
    simp only [hj2, Bool.not_true, Bool.false_eq_true, if_false]
    cases recordId with
    | none => exact hcrear none
    | some rid =>
      try simp only []
      cases hD : st.findRegistro rid with
      | some existente => exact Or.inl rfl
      | none => exact hcrear (some rid)
  · have hj' : (decide (equipo.judge = some juezId)) = false := decide_eq_false hj
    simp only [hj', Bool.not_false, if_true]
    exact Or.inl trivial

theorem registrarTiempo_inv15 (st : Store)
    (juezId equipoId time hours minutes seconds milliseconds : Nat)
    (recordId : Option Nat) (genId : Nat) (hinv : Inv15 st) :
    Inv15 (registrarTiempo st juezId equipoId time hours minutes seconds milliseconds
        recordId genId).2 := by
  rcases registrarTiempo_registros st juezId equipoId time hours minutes seconds
      milliseconds recordId genId with heq | ⟨nuevo, hteam, heq, hlt⟩
  · rw [heq]; exact hinv
  · intro tid
    rw [heq]
    simp only [Store.countTeam, List.filter_append, List.length_append]
    by_cases htid : nuevo.team = tid
    · have h15 := hinv tid
      simp only [Store.countTeam] at h15 hlt ⊢
      have : tid = equipoId := by rw [← htid, hteam]
      subst this
      simp [htid]
      omega
    · simp [htid]
      exact hinv tid

theorem bulkCreate_tables (rs : List RegistroTiempo) (st : Store) :
    (bulkCreate st rs).2.competencias = st.competencias
    ∧ (bulkCreate st rs).2.jueces = st.jueces
    ∧ (bulkCreate st rs).2.equipos = st.equipos := by
  induction rs generalizing st with
  | nil => exact ⟨rfl, rfl, rfl⟩
  | cons r rs ih =>
    simp only [bulkCreate]
    cases hf : st.findRegistro r.recordId with
    | some x => exact ih st
    | none =>
      have := ih { st with registros := st.registros ++ [r] }
      simpa using this

theorem bulkCreate_registros (rs : List RegistroTiempo) (st : Store) :
    (bulkCreate st rs).2.registros = st.registros ++ (bulkCreate st rs).1 := by
  induction rs generalizing st with
  | nil => simp [bulkCreate]
  | cons r rs ih =>
    simp only [bulkCreate]
    cases hf : st.findRegistro r.recordId with
    | some x => exact ih st
    | none =>
      have := ih { st with registros := st.registros ++ [r] }
      simp only at this ⊢
      rw [this]
      simp

theorem bulkCreate_sublist (rs : List RegistroTiempo) (st : Store) :
    ((bulkCreate st rs).1).Sublist rs := by
  induction rs generalizing st with
  | nil => simp [bulkCreate]
  | cons r rs ih =>
    simp only [bulkCreate]
    cases hf : st.findRegistro r.recordId with
    | some x => exact (ih st).cons r
    | none =>
      simp only
      exact (ih { st with registros := st.registros ++ [r] }).cons₂ r

theorem encolarRegistros_bound (numActuales equipoId : Nat) (genIds : Nat → Nat)
    (rest : List (Nat × BatchReg)) (aCrear : List (Nat × RegistroTiempo))
    (fallidos : List ItemFallido) :
    numActuales +
      ((encolarRegistros numActuales equipoId genIds rest aCrear fallidos).1).length
      ≤ max (numActuales + aCrear.length) MAX_REGISTROS_POR_EQUIPO := by
  induction rest generalizing aCrear fallidos with
  | nil =>
    simp only [encolarRegistros]
    exact le_max_left _ _
  | cons p rest ih =>
    obtain ⟨idx, reg⟩ := p
    simp only [encolarRegistros]
    cases htt : reg.tiempo with
    | none =>
      simp only [htt]
      exact ih aCrear _
    | some t =>
      simp only [htt]
      by_cases hle : MAX_REGISTROS_POR_EQUIPO ≤ numActuales + aCrear.length
      · rw [if_pos hle]
        exact ih aCrear _
      · rw [if_neg hle]
        refine le_trans (ih _ _) ?_
        have h1 : numActuales + (aCrear ++ [(idx,
            (⟨reg.idRegistro.getD (genIds idx), equipoId, t,
              reg.horas, reg.minutos, reg.segundos, reg.milisegundos⟩ : RegistroTiempo))]).length
            ≤ MAX_REGISTROS_POR_EQUIPO := by
          simp only [List.length_append, List.length_cons, List.length_nil]
          simp only [MAX_REGISTROS_POR_EQUIPO] at hle ⊢
          omega
        rw [Nat.max_eq_right h1]
        exact le_max_right _ _

theorem encolarRegistros_team (numActuales equipoId : Nat) (genIds : Nat → Nat)
    (rest : List (Nat × BatchReg)) (aCrear : List (Nat × RegistroTiempo))
    (fallidos : List ItemFallido)
    (hbase : ∀ p ∈ aCrear, (p.2).team = equipoId) :
    ∀ p ∈ (encolarRegistros numActuales equipoId genIds rest aCrear fallidos).1,
      (p.2).team = equipoId := by
  induction rest generalizing aCrear fallidos with
  | nil =>
    simpa only [encolarRegistros] using hbase
  | cons p rest ih =>
    obtain ⟨idx, reg⟩ := p
    simp only [encolarRegistros]
    cases htt : reg.tiempo with
    | none =>
      simp only [htt]
      exact ih aCrear _ hbase
    | some t =>
      simp only [htt]
      by_cases hle : MAX_REGISTROS_POR_EQUIPO ≤ numActuales + aCrear.length
      · rw [if_pos hle]
        exact ih aCrear _ hbase
      · rw [if_neg hle]
        refine ih _ _ ?_
        intro q hq
        rcases List.mem_append.mp hq with hq | hq
        · exact hbase q hq
        · rcases List.mem_singleton.mp hq with rfl
          rfl

/-- `_registrar_batch_impl` either leaves the store unchanged, or (when the
team had zero records) appends at most 15 records, all for the target
team. -/
theorem registrarBatch_cases (st : Store) (juezId equipoId : Nat)
    (registros : List BatchReg) (genIds : Nat → Nat) :
    (registrarBatch st juezId equipoId registros genIds).2 = st
    ∨ (∃ creados : List RegistroTiempo,
        (∀ r ∈ creados, r.team = equipoId)
        ∧ st.countTeam equipoId = 0
        ∧ creados.length ≤ MAX_REGISTROS_POR_EQUIPO
        ∧ (registrarBatch st juezId equipoId registros genIds).2 =
            { st with registros := st.registros ++ creados }) := by
  unfold registrarBatch
  cases hJ : st.findJuez juezId with
  | none => exact Or.inl rfl
  | some juez =>
  try simp only []
  cases hH : (st.equiposDeJuez juezId).head? with
  | none => exact Or.inl rfl
  | some primero =>
  try simp only []
  cases hC : st.findCompetencia primero.competition with
  | none => exact Or.inl rfl
  | some competenciaJuez =>
  try simp only []
  cases hR : competenciaJuez.isRunning with
  | false => exact Or.inl (by simp [hR])
  | true =>
  simp only [hR, Bool.not_true, Bool.false_eq_true, if_false]
  cases hE : st.findEquipo equipoId with
  | none => exact Or.inl rfl
  | some equipo =>
  try simp only []
  by_cases hj : equipo.judge = some juezId
  · have hj2 : decide (equipo.judge = some juezId) = true := decide_eq_true hj
    simp only [hj2, Bool.not_true, Bool.false_eq_true, if_false]
    by_cases hcnt : 0 < st.countTeam equipoId
    · rw [if_pos hcnt]
      exact Or.inl rfl
    · rw [if_neg hcnt]
      have hzero : st.countTeam equipoId = 0 := by omega
      set resultado :=
        encolarRegistros (st.countTeam equipoId) equipoId genIds
          registros.enum [] [] with hres
      by_cases hmap : resultado.1 = []
      · rw [if_pos hmap]
        exact Or.inl rfl
      · rw [if_neg hmap]
        refine Or.inr ⟨(bulkCreate st (resultado.1.map (·.2))).1, ?_, hzero, ?_, ?_⟩
        · intro r hr
          have hsub := bulkCreate_sublist (resultado.1.map (·.2)) st
          have hmem := hsub.subset hr
          rcases List.mem_map.mp hmem with ⟨q, hq, rfl⟩
          exact encolarRegistros_team (st.countTeam equipoId) equipoId genIds
            registros.enum [] [] (by intro p hp; cases hp) q hq
        · have hlen := (bulkCreate_sublist (resultado.1.map (·.2)) st).length_le
          have hbound := encolarRegistros_bound (st.countTeam equipoId) equipoId genIds
            registros.enum [] []
          rw [← hres] at hbound
          simp only [List.length_nil, Nat.add_zero] at hbound
          rw [hzero] at hbound
          simp only [Nat.zero_add, Nat.zero_max] at hbound
          have hml : (resultado.1.map (·.2)).length = resultado.1.length := List.length_map _ _
          omega
        · have h1 := bulkCreate_registros (resultado.1.map (·.2)) st
          have h2 := bulkCreate_tables (resultado.1.map (·.2)) st
          cases hbc : bulkCreate st (resultado.1.map (·.2)) with
          | mk creados st2 =>
            rw [hbc] at h1 h2
            simp only at h1 h2 ⊢
            cases st2 with
            | mk c2 j2 e2 r2 =>
              simp only at h1 h2
              simp [h1, h2.1, h2.2.1, h2.2.2]
  · have hj' : (decide (equipo.judge = some juezId)) = false := decide_eq_false hj
    simp only [hj', Bool.not_false, if_true]
    exact Or.inl trivial

theorem registrarBatch_inv15 (st : Store) (juezId equipoId : Nat)
    (registros : List BatchReg) (genIds : Nat → Nat) (hinv : Inv15 st) :
    Inv15 (registrarBatch st juezId equipoId registros genIds).2 := by
  rcases registrarBatch_cases st juezId equipoId registros genIds with
    heq | ⟨creados, hteam, hzero, hlen, heq⟩
  · rw [heq]; exact hinv
  · intro tid
    rw [heq]
    simp only [Store.countTeam, List.filter_append, List.length_append]
    by_cases htid : tid = equipoId
    · subst htid
      have hfil : (creados.filter (fun r => r.team = tid)).length ≤ creados.length :=
        List.length_filter_le _ _
      have := hinv tid
      simp only [Store.countTeam] at hzero ⊢
      rw [hzero]
      omega
    · have hfil : creados.filter (fun r => r.team = tid) = [] := by
        rw [List.filter_eq_nil_iff]
        intro r hr
        simp only [decide_eq_true_eq]
        intro hrt
        exact htid (by rw [← hrt, hteam r hr])
      rw [hfil]
      simpa using hinv tid

theorem applyRegOp_inv15 (st : Store) (op : RegOp) (hinv : Inv15 st) :
    Inv15 (applyRegOp st op) := by
  cases op with
  | single juezId equipoId time hours minutes seconds milliseconds recordId genId =>
    exact registrarTiempo_inv15 st juezId equipoId time hours minutes seconds
      milliseconds recordId genId hinv
  | batch juezId equipoId registros genIds =>
    exact registrarBatch_inv15 st juezId equipoId registros genIds hinv

/-- C2: the 15-record cap is an invariant of every sequence of single and
batch registration operations, and — when the preliminary checks pass and
the supplied idempotency key (if any) is fresh — a single registration
against a team that already has 15 or more records fails with the
record-limit error and leaves the store untouched. -/
theorem claim_c2 :
    (∀ st, Inv15 st → ∀ ops, Inv15 (execReg st ops))
    ∧ (∀ st juezId equipoId time hours minutes seconds milliseconds recordId genId
        juez primero competenciaJuez equipo,
        st.findJuez juezId = some juez →
        (st.equiposDeJuez juezId).head? = some primero →
        st.findCompetencia primero.competition = some competenciaJuez →
        competenciaJuez.isRunning = true →
        st.findEquipo equipoId = some equipo →
        equipo.judge = some juezId →
        (∀ rid, recordId = some rid → st.findRegistro rid = none) →
        MAX_REGISTROS_POR_EQUIPO ≤ st.countTeam equipoId →
        registrarTiempo st juezId equipoId time hours minutes seconds milliseconds
          recordId genId = (.err .limiteAlcanzado, st)) := by
  constructor
  · intro st hinv ops
    induction ops generalizing st with
    | nil => exact hinv
    | cons op ops ih => exact ih (applyRegOp st op) (applyRegOp_inv15 st op hinv)
  · intro st juezId equipoId time hours minutes seconds milliseconds recordId genId
      juez primero competenciaJuez equipo hJ hH hC hR hE hj hfresh hcnt
    cases recordId with
    | none =>
      simp only [registrarTiempo, hJ, hH, hC, hR, hE, decide_eq_true hj,
        Bool.not_true, Bool.false_eq_true, if_false, crearRegistro, if_pos hcnt]
    | some rid =>
      simp only [registrarTiempo, hJ, hH, hC, hR, hE, decide_eq_true hj,
        Bool.not_true, Bool.false_eq_true, if_false, hfresh rid rfl,
        crearRegistro, if_pos hcnt]

/-- Store whose team 42 already holds 15 records. -/
def stLleno : Store :=
  ⟨[compEnCurso], [juez7], [equipo42],
    (List.range 15).map (fun i => ⟨100 + i, 42, 1000, 0, 0, 0, 0⟩)⟩

/-- C2 witness: a concrete operation sequence keeps the cap, and a 16th
single registration against the full team 42 is rejected unchanged. -/
theorem claim_c2_witness :
    Inv15 (execReg stRegistro
      [RegOp.single 7 42 5000 0 0 0 0 none 101,
       RegOp.batch 7 42 batch15 (fun _ => 900)])
    ∧ registrarTiempo stLleno 7 42 5000 0 0 0 0 none 300
        = (.err .limiteAlcanzado, stLleno) :=
  ⟨claim_c2.1 stRegistro
      (by intro tid; simp [Store.countTeam, stRegistro])
      [RegOp.single 7 42 5000 0 0 0 0 none 101,
       RegOp.batch 7 42 batch15 (fun _ => 900)],
   claim_c2.2 stLleno 7 42 5000 0 0 0 0 none 300 juez7 equipo42 compEnCurso equipo42
      (by decide) (by decide) (by decide) (by decide) (by decide) (by decide)
      (by intro rid h; cases h) (by decide)⟩

/-- C3: when a single registration with idempotency key `r` succeeds with
`duplicado = false`, exactly one record was appended, and repeating the
call with the same key (whatever fresh UUID the retry would draw) returns
success with `duplicado = true` and the previously stored record, changing
nothing. -/
theorem claim_c3 (st : Store)
    (juezId equipoId time hours minutes seconds milliseconds r genId genId2 : Nat)
    (rec : RegistroTiempo) (st1 : Store)
    (h1 : registrarTiempo st juezId equipoId time hours minutes seconds milliseconds
        (some r) genId = (.ok rec false, st1)) :
    registrarTiempo st1 juezId equipoId time hours minutes seconds milliseconds
        (some r) genId2 = (.ok rec true, st1)
    ∧ st1.registros = st.registros ++ [rec] := by
  unfold registrarTiempo at h1
  cases hJ : st.findJuez juezId with
  | none => rw [hJ] at h1; simp at h1
  | some juez =>
  rw [hJ] at h1
  simp only [] at h1
  cases hH : (st.equiposDeJuez juezId).head? with
  | none => rw [hH] at h1; simp at h1
  | some primero =>
  rw [hH] at h1
  simp only [] at h1
  cases hC : st.findCompetencia primero.competition with
  | none => rw [hC] at h1; simp at h1
  | some competenciaJuez =>
  rw [hC] at h1
  simp only [] at h1
  cases hR : competenciaJuez.isRunning with
  | false => simp [hR] at h1
  | true =>
  simp only [hR, Bool.not_true, Bool.false_eq_true, if_false] at h1
  cases hE : st.findEquipo equipoId with
  | none => rw [hE] at h1; simp at h1
  | some equipo =>
  rw [hE] at h1
  simp only [] at h1
  by_cases hj : equipo.judge = some juezId
  case neg => simp [decide_eq_false hj] at h1
  case pos =>
  simp only [decide_eq_true hj, Bool.not_true, Bool.false_eq_true, if_false] at h1
  cases hD : st.findRegistro r with
  | some existente => rw [hD] at h1; simp at h1
  | none =>
  rw [hD] at h1
  simp only [crearRegistro, Option.getD_some] at h1
  by_cases hcnt : MAX_REGISTROS_POR_EQUIPO ≤ st.countTeam equipoId
  case pos => rw [if_pos hcnt] at h1; simp at h1
  case neg =>
  rw [if_neg hcnt] at h1
  try simp only [] at h1
  rw [hD] at h1
  simp only [Prod.mk.injEq, RegResult.ok.injEq] at h1
  obtain ⟨⟨hrec, -⟩, hst1⟩ := h1
  subst hrec
  subst hst1
  constructor
  · unfold registrarTiempo
    simp only [findJuez_set_registros, equiposDeJuez_set_registros,
      findCompetencia_set_registros, findEquipo_set_registros,
      hJ, hH, hC, hR, decide_eq_true hj, Bool.not_true, Bool.false_eq_true, if_false]
    have hfind : Store.findRegistro
        { st with registros := st.registros ++
            [(⟨r, equipoId, time, hours, minutes, seconds, milliseconds⟩ : RegistroTiempo)] } r
        = some ⟨r, equipoId, time, hours, minutes, seconds, milliseconds⟩ := by
      unfold Store.findRegistro at hD ⊢
      simp only [List.find?_append, hD, Option.none_or, List.find?_singleton]
      simp
    rw [hfind]
    simp only [hE, decide_eq_true hj, Bool.not_true, Bool.false_eq_true, if_false]
  · rfl

/-- Store after judge 7 successfully registered record 55 for team 42. -/
def stConRegistro : Store :=
  ⟨[compEnCurso], [juez7], [equipo42], [⟨55, 42, 5000, 0, 0, 0, 0⟩]⟩

/-- C3 witness: registering record 55 twice stores it once; the retry
reports `duplicado = true` with the stored row. -/
theorem claim_c3_witness :
    registrarTiempo stConRegistro 7 42 5000 0 0 0 0 (some 55) 102
        = (.ok ⟨55, 42, 5000, 0, 0, 0, 0⟩ true, stConRegistro)
    ∧ stConRegistro.registros = stRegistro.registros ++ [⟨55, 42, 5000, 0, 0, 0, 0⟩] :=
  claim_c3 stRegistro 7 42 5000 0 0 0 0 55 101 102 ⟨55, 42, 5000, 0, 0, 0, 0⟩
    stConRegistro rfl

/-- C9: a registration attempt for a team whose assigned judge is not the
caller never writes anything, and — when the judge exists, has teams and
their competition is running — fails precisely with the not-owned error. -/
theorem claim_c9 :
    (∀ st juezId equipoId time hours minutes seconds milliseconds recordId genId equipo,
        st.findEquipo equipoId = some equipo →
        equipo.judge ≠ some juezId →
        (registrarTiempo st juezId equipoId time hours minutes seconds milliseconds
            recordId genId).2 = st)
    ∧ (∀ st juezId equipoId time hours minutes seconds milliseconds recordId genId
          juez primero competenciaJuez equipo,
        st.findJuez juezId = some juez →
        (st.equiposDeJuez juezId).head? = some primero →
        st.findCompetencia primero.competition = some competenciaJuez →
        competenciaJuez.isRunning = true →
        st.findEquipo equipoId = some equipo →
        equipo.judge ≠ some juezId →
        registrarTiempo st juezId equipoId time hours minutes seconds milliseconds
            recordId genId = (.err .equipoAjeno, st)) := by
  constructor
  · intro st juezId equipoId time hours minutes seconds milliseconds recordId genId
      equipo hE hne
    unfold registrarTiempo
    cases hJ : st.findJuez juezId with
    | none => rfl
    | some juez =>
    try simp only []
    cases hH : (st.equiposDeJuez juezId).head? with
    | none => rfl
    | some primero =>
    try simp only []
    cases hC : st.findCompetencia primero.competition with
    | none => rfl
    | some competenciaJuez =>
    try simp only []
    cases hR : competenciaJuez.isRunning with
    | false => simp [hR]
    | true =>
    simp only [hR, Bool.not_true, Bool.false_eq_true, if_false, hE,
      decide_eq_false hne, Bool.not_false, if_true]
  · intro st juezId equipoId time hours minutes seconds milliseconds recordId genId
      juez primero competenciaJuez equipo hJ hH hC hR hE hne
    simp only [registrarTiempo, hJ, hH, hC, hR, hE, decide_eq_false hne,
      Bool.not_true, Bool.not_false, Bool.false_eq_true, if_false, if_true]

def juez8 : Juez := ⟨8, "juez8", true⟩

def equipo43 : Equipo := ⟨43, "Los Rapidos", 11, "estudiantes", 1, some 8⟩

/-- Store with two judges: judge 7 owns team 42, judge 8 owns team 43. -/
def stDosJueces : Store := ⟨[compEnCurso], [juez7, juez8], [equipo42, equipo43], []⟩

/-- C9 witness: judge 8 registering for team 42 (owned by judge 7) gets
the not-owned error and the store stays unchanged; symmetrically for
judge 7 on team 43 nothing is written. -/
theorem claim_c9_witness :
    registrarTiempo stDosJueces 8 42 5000 0 0 0 0 none 101
        = (.err .equipoAjeno, stDosJueces)
    ∧ (registrarTiempo stDosJueces 7 43 5000 0 0 0 0 none 102).2 = stDosJueces :=
  ⟨claim_c9.2 stDosJueces 8 42 5000 0 0 0 0 none 101 juez8 equipo43 compEnCurso
      equipo42 (by decide) (by decide) (by decide) (by decide) (by decide) (by decide),
   claim_c9.1 stDosJueces 7 43 5000 0 0 0 0 none 102 equipo43
      (by decide) (by decide)⟩

/-- C10: whenever the records-status query answers (the team exists), it
reports `puede_enviar = true` exactly when the team has zero stored
records; any team with at least one record is reported as not allowed to
submit further. -/
theorem claim_c10 (st : Store) (equipoId : Nat) (resp : EstadoRegistros)
    (h : estadoEquipoRegistros st equipoId = some resp) :
    (resp.puedeEnviar = true ↔ st.countTeam equipoId = 0)
    ∧ resp.totalRegistros = st.countTeam equipoId
    ∧ (0 < resp.totalRegistros → resp.puedeEnviar = false) := by
  unfold estadoEquipoRegistros at h
  cases hE : st.findEquipo equipoId with
  | none => rw [hE] at h; cases h
  | some equipo =>
    rw [hE] at h
    simp only [Option.some.injEq] at h
    subst h
    refine ⟨?_, rfl, ?_⟩
    · simp
    · intro hpos
      have hpos' : 0 < st.countTeam equipoId := hpos
      have : st.countTeam equipoId ≠ 0 := by omega
      simp [this]

/-- C10 witness: team 42 with one stored record is reported as blocked;
after clearing (zero records) it is allowed. -/
theorem claim_c10_witness :
    ((estadoEquipoRegistros stConRegistro 42 = some
        ⟨42, "Los Veloces", 1, 15, false, [⟨55, 42, 5000, 0, 0, 0, 0⟩]⟩)
      ∧ (false = true ↔ stConRegistro.countTeam 42 = 0))
    ∧ (estadoEquipoRegistros stRegistro 42 = some ⟨42, "Los Veloces", 0, 15, true, []⟩
      ∧ (true = true ↔ stRegistro.countTeam 42 = 0)) :=
  ⟨⟨rfl, (claim_c10 stConRegistro 42
      ⟨42, "Los Veloces", 1, 15, false, [⟨55, 42, 5000, 0, 0, 0, 0⟩]⟩ rfl).1⟩,
   ⟨rfl, (claim_c10 stRegistro 42 ⟨42, "Los Veloces", 0, 15, true, []⟩ rfl).1⟩⟩

/-- `RegistroTiempo.save` always re-establishes the total/component
invariant: deriving the total from non-zero components, or the components
from the total, is exact in both directions. -/
theorem save_invariante (reg : RegistroTiempo) : invarianteTiempo reg.save := by
  unfold RegistroTiempo.save invarianteTiempo
  split
  · rfl
  · simp only [derivarComponentes]
    omega

/-- C7 (code bug): the registration service writes through
`bulk_create`, which never calls `RegistroTiempo.save`, so a record
submitted with only a total (components left 0) is stored violating the
total/component invariant — while `save` on the same data would have
derived components summing back to the total. -/
theorem claim_c7_bug :
    registrarTiempo stRegistro 7 42 5000 0 0 0 0 none 101
      = (.ok ⟨101, 42, 5000, 0, 0, 0, 0⟩ false,
         ⟨[compEnCurso], [juez7], [equipo42], [⟨101, 42, 5000, 0, 0, 0, 0⟩]⟩)
    ∧ ¬ invarianteTiempo ⟨101, 42, 5000, 0, 0, 0, 0⟩
    ∧ invarianteTiempo (RegistroTiempo.save ⟨101, 42, 5000, 0, 0, 0, 0⟩)
    ∧ RegistroTiempo.save ⟨101, 42, 5000, 0, 0, 0, 0⟩ = ⟨101, 42, 5000, 0, 0, 5, 0⟩ := by
  exact ⟨rfl, by decide, by decide, rfl⟩

/-! ## Batch scenario lemmas (C4) -/

/-- The `RegistroTiempo` instance the batch queue builds for item
`(idx, reg)` (registro_service.py:273-282). -/
def convReg (equipoId : Nat) (genIds : Nat → Nat) (p : Nat × BatchReg) : RegistroTiempo :=
  ⟨(p.2).idRegistro.getD (genIds p.1), equipoId, (p.2).tiempo.getD 0,
    (p.2).horas, (p.2).minutos, (p.2).segundos, (p.2).milisegundos⟩

/-- When every item carries a time and the whole tail fits under the cap,
the queueing loop accepts every item in order and fails none. -/
theorem encolarRegistros_all (numActuales equipoId : Nat) (genIds : Nat → Nat) :
    ∀ (rest : List (Nat × BatchReg)) (aCrear : List (Nat × RegistroTiempo))
      (fallidos : List ItemFallido),
      (∀ p ∈ rest, (p.2).tiempo ≠ none) →
      numActuales + aCrear.length + rest.length ≤ MAX_REGISTROS_POR_EQUIPO →
      encolarRegistros numActuales equipoId genIds rest aCrear fallidos
        = (aCrear ++ rest.map (fun p => (p.1, convReg equipoId genIds p)), fallidos) := by
  intro rest
  induction rest with
  | nil =>
    intro aCrear fallidos _ _
    simp [encolarRegistros]
  | cons p rest ih =>
    intro aCrear fallidos htiempo hbound
    obtain ⟨idx, reg⟩ := p
    simp only [encolarRegistros]
    cases htt : reg.tiempo with
    | none => exact absurd htt (htiempo (idx, reg) (List.mem_cons_self _ _))
    | some t =>
      simp only [htt]
      have hlt : ¬ MAX_REGISTROS_POR_EQUIPO ≤ numActuales + aCrear.length := by
        simp only [List.length_cons] at hbound
        omega
      rw [if_neg hlt]
      rw [ih _ _ (fun q hq => htiempo q (List.mem_cons_of_mem _ hq))
        (by simp only [List.length_cons] at hbound
            simp only [List.length_append, List.length_cons, List.length_nil]
            omega)]
      simp [convReg, htt]

/-- `bulk_create` with pairwise-distinct record ids, none already stored,
inserts every row in order. -/
theorem bulkCreate_fresh :
    ∀ (rs : List RegistroTiempo) (st : Store),
      ((rs.map (·.recordId)).Nodup) →
      (∀ x ∈ rs, st.findRegistro x.recordId = none) →
      bulkCreate st rs = (rs, { st with registros := st.registros ++ rs }) := by
  intro rs
  induction rs with
  | nil =>
    intro st _ _
    simp [bulkCreate]
  | cons r rs ih =>
    intro st hnd hfresh
    simp only [List.map_cons, List.nodup_cons] at hnd
    simp only [bulkCreate]
    rw [hfresh r (List.mem_cons_self _ _)]
    have hfresh' : ∀ x ∈ rs,
        Store.findRegistro { st with registros := st.registros ++ [r] } x.recordId = none := by
      intro x hx
      have hne : r.recordId ≠ x.recordId := by
        intro he
        exact hnd.1 (he ▸ List.mem_map_of_mem (·.recordId) hx)
      have hn := hfresh x (List.mem_cons_of_mem _ hx)
      unfold Store.findRegistro at hn ⊢
      simp only [List.find?_append, hn, Option.none_or, List.find?_singleton]
      simp [hne]
    rw [ih { st with registros := st.registros ++ [r] } hnd.2 hfresh']
    simp

/-- C4 (amended): a batch of 15 well-formed records with fresh, distinct
ids against a team with zero stored records saves all 15 (each reported
`duplicado = false`, none failed) and leaves the team with exactly 15
records; resubmitting the identical batch is rejected outright — all 15
items fail with the already-submitted error (the one-shot batch policy),
no item is reported duplicate, and the stored count stays 15. -/
theorem claim_c4_amended (st : Store) (juezId equipoId : Nat)
    (registros : List BatchReg) (genIds genIds2 : Nat → Nat)
    (juez : Juez) (primero equipo : Equipo) (competenciaJuez : Competencia)
    (hJ : st.findJuez juezId = some juez)
    (hH : (st.equiposDeJuez juezId).head? = some primero)
    (hC : st.findCompetencia primero.competition = some competenciaJuez)
    (hR : competenciaJuez.isRunning = true)
    (hE : st.findEquipo equipoId = some equipo)
    (hj : equipo.judge = some juezId)
    (hcount : st.countTeam equipoId = 0)
    (hlen : registros.length = MAX_REGISTROS_POR_EQUIPO)
    (htiempos : ∀ reg ∈ registros, reg.tiempo ≠ none)
    (hnodup : (registros.enum.map (fun p => (convReg equipoId genIds p).recordId)).Nodup)
    (hfresh : ∀ p ∈ registros.enum,
        st.findRegistro ((convReg equipoId genIds p).recordId) = none) :
    registrarBatch st juezId equipoId registros genIds =
      (⟨registros.length, registros.length, 0,
        registros.enum.map (fun p =>
          ⟨p.1, (convReg equipoId genIds p).recordId, (convReg equipoId genIds p).time, false⟩),
        []⟩,
       { st with registros := st.registros ++ registros.enum.map (convReg equipoId genIds) })
    ∧ ({ st with registros := st.registros ++ registros.enum.map (convReg equipoId genIds) }
        : Store).countTeam equipoId = MAX_REGISTROS_POR_EQUIPO
    ∧ registrarBatch
        { st with registros := st.registros ++ registros.enum.map (convReg equipoId genIds) }
        juezId equipoId registros genIds2
        = (batchTodoFallido registros.length (.yaTieneRegistros MAX_REGISTROS_POR_EQUIPO),
           { st with registros := st.registros ++ registros.enum.map (convReg equipoId genIds) }) := by
  have henumlen : registros.enum.length = registros.length := List.enum_length
  have hmtiempo : ∀ p ∈ registros.enum, (p.2).tiempo ≠ none := by
    intro p hp
    exact htiempos p.2 (List.snd_mem_of_mem_enumFrom hp)
  have hencolar := encolarRegistros_all (st.countTeam equipoId) equipoId genIds
    registros.enum [] [] hmtiempo
    (by rw [hcount, henumlen, hlen]; simp)
  have hndmap : ((registros.enum.map (convReg equipoId genIds)).map (·.recordId)).Nodup := by
    rw [List.map_map]
    exact hnodup
  have hfreshmap : ∀ x ∈ registros.enum.map (convReg equipoId genIds),
      st.findRegistro x.recordId = none := by
    intro x hx
    rcases List.mem_map.mp hx with ⟨p, hp, rfl⟩
    exact hfresh p hp
  have hbulk := bulkCreate_fresh (registros.enum.map (convReg equipoId genIds)) st
    hndmap hfreshmap
  have hteamnuevos : ∀ x ∈ registros.enum.map (convReg equipoId genIds),
      x.team = equipoId := by
    intro x hx
    rcases List.mem_map.mp hx with ⟨p, _, rfl⟩
    rfl
  have hcount1 : ({ st with registros :=
      st.registros ++ registros.enum.map (convReg equipoId genIds) } : Store).countTeam
      equipoId = MAX_REGISTROS_POR_EQUIPO := by
    unfold Store.countTeam at hcount ⊢
    simp only [List.filter_append, List.length_append]
    have h2 : (registros.enum.map (convReg equipoId genIds)).filter
        (fun r => r.team = equipoId) = registros.enum.map (convReg equipoId genIds) :=
      List.filter_eq_self.mpr (by intro a ha; simpa using hteamnuevos a ha)
    rw [hcount, h2, List.length_map, henumlen, hlen]
    omega
  refine ⟨?_, hcount1, ?_⟩
  · unfold registrarBatch
    rw [hJ]
    try simp only []
    rw [hH]
    try simp only []
    rw [hC]
    try simp only []
    simp only [hR, Bool.not_true, Bool.false_eq_true, if_false]
    rw [hE]
    try simp only []
    simp only [decide_eq_true hj, Bool.not_true, Bool.false_eq_true, if_false]
    rw [if_neg (by rw [hcount]; omega)]
    rw [hencolar]
    try simp only []
    have hnonnil : ¬([] ++ registros.enum.map
        (fun p => (p.1, convReg equipoId genIds p)) = []) := by
      simp only [List.nil_append]
      intro hnil
      have hlen0 := congrArg List.length hnil
      simp only [List.length_map, henumlen, hlen, List.length_nil] at hlen0
      simp [MAX_REGISTROS_POR_EQUIPO] at hlen0
    rw [if_neg hnonnil]
    have hmap2 : ((([] : List (Nat × RegistroTiempo)) ++ registros.enum.map
          (fun p => (p.1, convReg equipoId genIds p))).map
            (fun x : Nat × RegistroTiempo => x.2))
        = registros.enum.map (convReg equipoId genIds) := by
      simp only [List.nil_append, List.map_map]
      rfl
    rw [hmap2, hbulk]
    try simp only []
    have hguard : ∀ p ∈ registros.enum,
        (((registros.enum.map (convReg equipoId genIds)).map
            (fun r => r.recordId)).contains ((convReg equipoId genIds p).recordId)) = true := by
      intro p hp
      have hmem : (convReg equipoId genIds p).recordId ∈
          (registros.enum.map (convReg equipoId genIds)).map (fun r => r.recordId) :=
        List.mem_map_of_mem _ (List.mem_map_of_mem _ hp)
      simpa using hmem
    simp only [Prod.mk.injEq, BatchResult.mk.injEq, List.nil_append, List.length_map,
      henumlen, List.length_nil, List.map_map]
    refine ⟨⟨trivial, trivial, trivial, ?_, trivial⟩, trivial⟩
    apply List.map_congr_left
    intro p hp
    have hc := hguard p hp
    rw [List.map_map] at hc
    simp only [Function.comp, hc, Bool.not_true]
  · unfold registrarBatch
    simp only [findJuez_set_registros, equiposDeJuez_set_registros,
      findCompetencia_set_registros, findEquipo_set_registros,
      hJ, hH, hC, hR, hE, decide_eq_true hj, Bool.not_true, Bool.false_eq_true, if_false]
    rw [hcount1]
    rw [if_pos (by simp [MAX_REGISTROS_POR_EQUIPO])]

/-- The store after team 42's batch of 15 was saved. -/
def stLote1 : Store :=
  { stRegistro with registros :=
      stRegistro.registros ++ batch15.enum.map (convReg 42 (fun _ => 900)) }

/-- C4 counterexample: after a first batch of 15 unique records is fully
saved (all non-duplicate, count 15), resubmitting the identical batch does
NOT report 15 duplicates — it reports zero saved/duplicate items and 15
failures, though the count does stay 15. -/
theorem claim_c4_counterexample :
    (registrarBatch stRegistro 7 42 batch15 (fun _ => 900)).1.registrosGuardados.length = 15
    ∧ ((registrarBatch stRegistro 7 42 batch15 (fun _ => 900)).1.registrosGuardados.map
        (fun g => g.duplicado)) = List.replicate 15 false
    ∧ (registrarBatch stRegistro 7 42 batch15 (fun _ => 900)).2.countTeam 42 = 15
    ∧ (registrarBatch (registrarBatch stRegistro 7 42 batch15 (fun _ => 900)).2
        7 42 batch15 (fun _ => 901)).1.registrosGuardados = []
    ∧ (registrarBatch (registrarBatch stRegistro 7 42 batch15 (fun _ => 900)).2
        7 42 batch15 (fun _ => 901)).1.registrosFallidos.length = 15
    ∧ (registrarBatch (registrarBatch stRegistro 7 42 batch15 (fun _ => 900)).2
        7 42 batch15 (fun _ => 901)).2.countTeam 42 = 15 := by
  exact ⟨rfl, rfl, rfl, rfl, rfl, rfl⟩

/-- C4 witness: the amended statement at team 42 with the concrete batch
of 15 unique ids. -/
theorem claim_c4_witness :
    registrarBatch stRegistro 7 42 batch15 (fun _ => 900) =
      (⟨batch15.length, batch15.length, 0,
        batch15.enum.map (fun p =>
          ⟨p.1, (convReg 42 (fun _ => 900) p).recordId,
            (convReg 42 (fun _ => 900) p).time, false⟩),
        []⟩, stLote1)
    ∧ stLote1.countTeam 42 = MAX_REGISTROS_POR_EQUIPO
    ∧ registrarBatch stLote1 7 42 batch15 (fun _ => 901)
        = (batchTodoFallido batch15.length (.yaTieneRegistros MAX_REGISTROS_POR_EQUIPO),
           stLote1) :=
  claim_c4_amended stRegistro 7 42 batch15 (fun _ => 900) (fun _ => 901) juez7 equipo42
    equipo42 compEnCurso (by decide) (by decide) (by decide) (by decide) (by decide)
    (by decide) (by decide) (by decide) (by decide) (by decide) (by decide)

/-! ## Results-aggregation lemmas (C8) -/

theorem leCalificados_total (a b : EquipoProcesado) :
    leCalificados a b || leCalificados b a := by
  unfold leCalificados claveCalificado
  by_cases ha : 0 < a.tiempoTotalMs <;> by_cases hb : 0 < b.tiempoTotalMs <;>
    simp [ha, hb] <;> try omega

theorem leCalificados_trans (a b c : EquipoProcesado) :
    leCalificados a b → leCalificados b c → leCalificados a c := by
  unfold leCalificados claveCalificado
  by_cases ha : 0 < a.tiempoTotalMs <;> by_cases hb : 0 < b.tiempoTotalMs <;>
    by_cases hc : 0 < c.tiempoTotalMs <;> simp [ha, hb, hc] <;> try omega

theorem leDescalificados_total (a b : EquipoProcesado) :
    leDescalificados a b || leDescalificados b a := by
  unfold leDescalificados
  simp only [Bool.or_eq_true, decide_eq_true_eq]
  omega

theorem leDescalificados_trans (a b c : EquipoProcesado) :
    leDescalificados a b → leDescalificados b c → leDescalificados a c := by
  unfold leDescalificados
  simp only [decide_eq_true_eq]
  omega

theorem asignarPosiciones_fields :
    ∀ (i : Nat) (l : List EquipoProcesado) (p : EquipoProcesado),
      p ∈ asignarPosiciones i l →
      ∃ q ∈ l, p.equipo = q.equipo ∧ p.descalificado = q.descalificado
        ∧ p.tiempoTotalMs = q.tiempoTotalMs := by
  intro i l
  induction l generalizing i with
  | nil => intro p hp; cases hp
  | cons e rest ih =>
    intro p hp
    simp only [asignarPosiciones] at hp
    rcases List.mem_cons.mp hp with rfl | hp
    · exact ⟨e, List.mem_cons_self _ _, rfl, rfl, rfl⟩
    · rcases ih (i + 1) p hp with ⟨q, hq, h1, h2, h3⟩
      exact ⟨q, List.mem_cons_of_mem _ hq, h1, h2, h3⟩

theorem asignarPosiciones_pairwise (R : Nat → Nat → Prop) :
    ∀ (i : Nat) (l : List EquipoProcesado),
      l.Pairwise (fun a b => R a.tiempoTotalMs b.tiempoTotalMs) →
      (asignarPosiciones i l).Pairwise (fun a b => R a.tiempoTotalMs b.tiempoTotalMs) := by
  intro i l
  induction l generalizing i with
  | nil => intro _; exact List.Pairwise.nil
  | cons e rest ih =>
    intro hp
    rw [List.pairwise_cons] at hp
    simp only [asignarPosiciones]
    rw [List.pairwise_cons]
    constructor
    · intro p hpmem
      rcases asignarPosiciones_fields (i + 1) rest p hpmem with ⟨q, hq, _, _, h3⟩
      show R e.tiempoTotalMs p.tiempoTotalMs
      rw [h3]
      exact hp.1 q hq
    · exact ih (i + 1) hp.2

theorem leCalificados_implies (a b : EquipoProcesado) (h : leCalificados a b = true) :
    (0 < b.tiempoTotalMs → a.tiempoTotalMs ≤ b.tiempoTotalMs ∧ 0 < a.tiempoTotalMs)
    ∧ (a.tiempoTotalMs = 0 → b.tiempoTotalMs = 0) := by
  unfold leCalificados claveCalificado at h
  by_cases ha : 0 < a.tiempoTotalMs <;> by_cases hb : 0 < b.tiempoTotalMs <;>
    simp [ha, hb] at h ⊢ <;> omega

/-- C8 (amended): every input team with a zero-time record lands in the
disqualified partition (absent count equal to its number of zero records,
hence at least 1); the rendered list is the qualified block followed by
the disqualified block; qualified teams with a positive total appear in
ascending order of their summed times, and any qualified team with total
0 (one with no records) is placed after every positive-total qualified
team; disqualified teams are ordered among themselves by ascending total. -/
theorem claim_c8_amended (entrada : List EquipoConTiempos) :
    (∀ e ∈ entrada, (∃ t ∈ e.tiempos, t.time = 0) →
      ∃ p ∈ (procesarEquipos entrada).2,
        p.equipo = e.equipo
        ∧ p.jugadoresAusentes = (e.tiempos.filter (fun t => t.time = 0)).length
        ∧ 1 ≤ p.jugadoresAusentes
        ∧ p.descalificado = true)
    ∧ listaEquipos entrada = (procesarEquipos entrada).1 ++ (procesarEquipos entrada).2
    ∧ (∀ p ∈ (procesarEquipos entrada).1, p.descalificado = false)
    ∧ (∀ p ∈ (procesarEquipos entrada).2, p.descalificado = true)
    ∧ (procesarEquipos entrada).1.Pairwise (fun a b =>
        (0 < b.tiempoTotalMs → a.tiempoTotalMs ≤ b.tiempoTotalMs ∧ 0 < a.tiempoTotalMs)
        ∧ (a.tiempoTotalMs = 0 → b.tiempoTotalMs = 0))
    ∧ (procesarEquipos entrada).2.Pairwise
        (fun a b => a.tiempoTotalMs ≤ b.tiempoTotalMs) := by
  refine ⟨?_, rfl, ?_, ?_, ?_, ?_⟩
  · intro e he ⟨t, ht, htz⟩
    have hposlen : 0 < (e.tiempos.filter (fun t => t.time = 0)).length :=
      List.length_pos_of_mem (List.mem_filter.mpr ⟨ht, by simp [htz]⟩)
    have hdesc : (procesarUno e).descalificado = true := by
      show decide (0 < (e.tiempos.filter (fun t => t.time = 0)).length) = true
      exact decide_eq_true hposlen
    refine ⟨procesarUno e, ?_, rfl, rfl, hposlen, hdesc⟩
    show procesarUno e ∈ ordenarEstable leDescalificados
      ((entrada.map procesarUno).filter (fun e => e.descalificado))
    exact mem_ordenarEstable.mpr
      (List.mem_filter.mpr ⟨List.mem_map_of_mem _ he, by simp [hdesc]⟩)
  · intro p hp
    rcases asignarPosiciones_fields 1 _ p hp with ⟨q, hq, _, h2, _⟩
    have hqmem := mem_ordenarEstable.mp hq
    have := (List.mem_filter.mp hqmem).2
    simp only [Bool.not_eq_true'] at this
    rw [h2, this]
  · intro p hp
    have hpmem := mem_ordenarEstable.mp hp
    exact (List.mem_filter.mp hpmem).2
  · exact asignarPosiciones_pairwise
      (fun x y => (0 < y → x ≤ y ∧ 0 < x) ∧ (x = 0 → y = 0)) 1 _
      ((pairwise_ordenarEstable leCalificados_total leCalificados_trans).imp
        (fun h => leCalificados_implies _ _ h))
  · exact (pairwise_ordenarEstable leDescalificados_total leDescalificados_trans).imp
      (fun h => by simpa [leDescalificados] using h)

/-- A team with no records at all, qualified with total 0. -/
def eqSinTiempos : EquipoConTiempos := ⟨⟨1, "SinTiempos", 1, "estudiantes", 1, none⟩, []⟩

/-- A team with one 100 ms record, qualified with total 100. -/
def eqConTiempo : EquipoConTiempos :=
  ⟨⟨2, "ConTiempo", 2, "estudiantes", 1, none⟩, [⟨1, 2, 100, 0, 0, 0, 100⟩]⟩

/-- A team with a zero-time record (disqualified) and a 50 ms record. -/
def eqAusente : EquipoConTiempos :=
  ⟨⟨3, "Ausente", 3, "estudiantes", 1, none⟩, [⟨2, 3, 0, 0, 0, 0, 0⟩, ⟨3, 3, 50, 0, 0, 0, 50⟩]⟩

def entradaC8 : List EquipoConTiempos := [eqSinTiempos, eqConTiempo, eqAusente]

/-- C8 counterexample: both remaining teams are qualified, yet the
qualified partition is ordered [100, 0] — not ascending by sum of record
times, because a zero total is sorted as infinity. -/
theorem claim_c8_counterexample :
    ((procesarEquipos entradaC8).1.map (fun e => e.descalificado) = [false, false])
    ∧ ((procesarEquipos entradaC8).1.map (fun e => e.tiempoTotalMs) = [100, 0])
    ∧ ¬ ((procesarEquipos entradaC8).1.map (fun e => e.tiempoTotalMs)).Pairwise (· ≤ ·) := by
  exact ⟨rfl, rfl, by decide⟩

/-- C8 witness: the amended statement instantiated on the concrete
three-team input. -/
theorem claim_c8_witness :
    listaEquipos entradaC8 = (procesarEquipos entradaC8).1 ++ (procesarEquipos entradaC8).2
    ∧ (procesarEquipos entradaC8).1.Pairwise (fun a b =>
        (0 < b.tiempoTotalMs → a.tiempoTotalMs ≤ b.tiempoTotalMs ∧ 0 < a.tiempoTotalMs)
        ∧ (a.tiempoTotalMs = 0 → b.tiempoTotalMs = 0))
    ∧ (procesarEquipos entradaC8).2.Pairwise
        (fun a b => a.tiempoTotalMs ≤ b.tiempoTotalMs) :=
  ⟨(claim_c8_amended entradaC8).2.1,
   (claim_c8_amended entradaC8).2.2.2.2.1,
   (claim_c8_amended entradaC8).2.2.2.2.2⟩

end Server5K
